import Mathlib

/-!
Verification development for the 2nd-Brain-Auto AI service
(`src/ai-service/main.py`, `src/ai-service/db_utils.py`,
`src/ai-service/database.py`).

The Python sources are shallowly embedded as executable Lean
definitions.  Machine floats are modelled as exact rationals, Python
dicts as association lists, Python exceptions as `Except`, database
sessions as explicit state passing over a `DB` record, and the remote
AI backends as an oracle inside an `Env` record.  Timestamps
(`created_at`, `updated_at`, `last_successful_call`) are abstracted
away: no claim depends on them.
-/

/-- Character code of a left curly brace. -/
def lbrace : Char := Char.ofNat 123

/-- Character code of a right curly brace. -/
def rbrace : Char := Char.ofNat 125

/-- JSON values as produced by Python's `json.loads`.  A number is kept
as a pair `m`, `e` denoting the decimal value `m / 10 ^ e`, which models
both Python ints (`e = 0`) and the finite decimal floats the service
manipulates. -/
inductive Json where
  | null : Json
  | bool (b : Bool) : Json
  | num (m : Int) (e : Nat) : Json
  | str (s : String) : Json
  | arr (elems : List Json) : Json
  | obj (fields : List (String × Json)) : Json
deriving Repr, Inhabited

mutual

/-- Boolean equality of JSON values (the nested occurrence of `Json`
under `List` prevents `deriving DecidableEq`, so equality is built by
hand from this kernel-reducible comparison). -/
def Json.beq : Json → Json → Bool
  | .null, .null => true
  | .bool x, .bool y => x == y
  | .num m e, .num m' e' => m == m' && e == e'
  | .str s, .str t => s == t
  | .arr xs, .arr ys => Json.beqList xs ys
  | .obj fs, .obj gs => Json.beqFields fs gs
  | _, _ => false

/-- Boolean equality of JSON value lists. -/
def Json.beqList : List Json → List Json → Bool
  | [], [] => true
  | x :: xs, y :: ys => Json.beq x y && Json.beqList xs ys
  | _, _ => false

/-- Boolean equality of JSON object field lists. -/
def Json.beqFields : List (String × Json) → List (String × Json) → Bool
  | [], [] => true
  | (k, v) :: xs, (k', v') :: ys => k == k' && Json.beq v v' && Json.beqFields xs ys
  | _, _ => false

end

mutual

/-- The boolean comparison decides equality of JSON values. -/
theorem Json.beq_iff : ∀ (a b : Json), Json.beq a b = true ↔ a = b
  | .null, b => by cases b <;> simp [Json.beq]
  | .bool x, b => by cases b <;> simp [Json.beq]
  | .num m e, b => by cases b <;> simp [Json.beq]
  | .str s, b => by cases b <;> simp [Json.beq]
  | .arr xs, .null => by simp [Json.beq]
  | .arr xs, .bool _ => by simp [Json.beq]
  | .arr xs, .num _ _ => by simp [Json.beq]
  | .arr xs, .str _ => by simp [Json.beq]
  | .arr xs, .arr ys => by simpa [Json.beq] using Json.beqList_iff xs ys
  | .arr xs, .obj _ => by simp [Json.beq]
  | .obj fs, .null => by simp [Json.beq]
  | .obj fs, .bool _ => by simp [Json.beq]
  | .obj fs, .num _ _ => by simp [Json.beq]
  | .obj fs, .str _ => by simp [Json.beq]
  | .obj fs, .arr _ => by simp [Json.beq]
  | .obj fs, .obj gs => by simpa [Json.beq] using Json.beqFields_iff fs gs

/-- The boolean comparison decides equality of JSON value lists. -/
theorem Json.beqList_iff : ∀ (a b : List Json), Json.beqList a b = true ↔ a = b
  | [], [] => by simp [Json.beqList]
  | [], _ :: _ => by simp [Json.beqList]
  | _ :: _, [] => by simp [Json.beqList]
  | x :: xs, y :: ys => by
    simp [Json.beqList, Bool.and_eq_true, Json.beq_iff x y, Json.beqList_iff xs ys]

/-- The boolean comparison decides equality of JSON field lists. -/
theorem Json.beqFields_iff : ∀ (a b : List (String × Json)), Json.beqFields a b = true ↔ a = b
  | [], [] => by simp [Json.beqFields]
  | [], _ :: _ => by simp [Json.beqFields]
  | _ :: _, [] => by simp [Json.beqFields]
  | (k, v) :: xs, (k', v') :: ys => by
    simp [Json.beqFields, Bool.and_eq_true, Json.beq_iff v v', Json.beqFields_iff xs ys,
      Prod.ext_iff]

end

instance : DecidableEq Json := fun a b => decidable_of_iff (Json.beq a b = true) (Json.beq_iff a b)

/-- Rational value of a JSON number (stated with `Rat.divInt`, which
the kernel evaluates). -/
def Json.numVal (m : Int) (e : Nat) : ℚ := Rat.divInt m (10 ^ e)

/-- The decimal float literal `m / 10 ^ e` as an exact rational, in a
form the kernel evaluates (used for the source's float literals such as
`0.6`). -/
def qdec (m : Int) (e : Nat) : ℚ := Rat.divInt m (10 ^ e)

/-- Lookup in a parsed JSON object.  Python's `json.loads` builds a
`dict`, in which a later duplicate key overwrites an earlier one, so the
last binding wins. -/
def jlookup (fields : List (String × Json)) (k : String) : Option Json :=
  (fields.reverse.find? (fun p => p.1 == k)).map (fun p => p.2)

/-- Model of Python's `dict.get(k, default)` on a parsed JSON object. -/
def jgetD (fields : List (String × Json)) (k : String) (default : Json) : Json :=
  (jlookup fields k).getD default

/-- Collapse duplicate keys the way Python's `dict` does: first
occurrence fixes the position, last occurrence fixes the value. -/
def dictCollapse (fields : List (String × Json)) : List (String × Json) :=
  fields.foldl
    (fun acc p =>
      if acc.any (fun q => q.1 == p.1) then
        acc.map (fun q => if q.1 == p.1 then (q.1, p.2) else q)
      else acc ++ [p])
    []

/-- JSON whitespace accepted by Python's `json.loads`. -/
def jsonWs (c : Char) : Bool := c == ' ' || c == '\t' || c == '\n' || c == '\r'

/-- Drop leading JSON whitespace. -/
def skipWs (cs : List Char) : List Char := cs.dropWhile jsonWs

/-- Hexadecimal digit value of a character, if any. -/
def hexVal (c : Char) : Option Nat :=
  if '0' ≤ c ∧ c ≤ '9' then some (c.toNat - 48)
  else if 'a' ≤ c ∧ c ≤ 'f' then some (c.toNat - 87)
  else if 'A' ≤ c ∧ c ≤ 'F' then some (c.toNat - 55)
  else none

/-- Parse the body of a JSON string literal (the opening quote already
consumed), handling the escape sequences `json.loads` accepts.  Returns
the decoded characters and the remaining input. -/
def parseJStr : Nat → List Char → Option (List Char × List Char)
  | 0, _ => none
  | _ + 1, [] => none
  | fuel + 1, c :: rest =>
    if c == '"' then some ([], rest)
    else if c == '\\' then
      match rest with
      | [] => none
      | e :: rest2 =>
        if e == 'u' then
          match rest2 with
          | h1 :: h2 :: h3 :: h4 :: rest3 =>
            match hexVal h1, hexVal h2, hexVal h3, hexVal h4 with
            | some a, some b, some c2, some d =>
              match parseJStr fuel rest3 with
              | some (body, rem) =>
                some (Char.ofNat (a * 4096 + b * 256 + c2 * 16 + d) :: body, rem)
              | none => none
            | _, _, _, _ => none
          | _ => none
        else
          let dec : Option Char :=
            if e == '"' then some '"'
            else if e == '\\' then some '\\'
            else if e == '/' then some '/'
            else if e == 'n' then some '\n'
            else if e == 't' then some '\t'
            else if e == 'r' then some '\r'
            else if e == 'b' then some (Char.ofNat 8)
            else if e == 'f' then some (Char.ofNat 12)
            else none
          match dec with
          | some d =>
            match parseJStr fuel rest2 with
            | some (body, rem) => some (d :: body, rem)
            | none => none
          | none => none
    else
      match parseJStr fuel rest with
      | some (body, rem) => some (c :: body, rem)
      | none => none

/-- Digit test. -/
def isDig (c : Char) : Bool := '0' ≤ c && c ≤ '9'

/-- Value of a digit run. -/
def digitsToNat (ds : List Char) : Nat :=
  ds.foldl (fun acc c => acc * 10 + (c.toNat - 48)) 0

/-- Parse a JSON number: optional minus sign, an integer part without
leading zeros, an optional fraction and an optional exponent, exactly
the grammar `json.loads` accepts.  The decimal value is returned as a
`Json.num` mantissa/exponent pair. -/
def parseJNum (cs : List Char) : Option (Json × List Char) :=
  let (neg, cs1) :=
    match cs with
    | c :: rest => if c == '-' then (true, rest) else (false, cs)
    | [] => (false, cs)
  let (intDs, cs2) := cs1.span isDig
  if intDs.isEmpty then none
  else if 1 < intDs.length ∧ intDs.headD '0' = '0' then none
  else
    let hasDot : Bool := match cs2 with | c :: _ => c == '.' | [] => false
    let (fracDs, cs3) :=
      match cs2 with
      | c :: rest =>
        if c == '.' then
          let (ds, r) := rest.span isDig
          (ds, r)
        else ([], cs2)
      | [] => ([], cs2)
    if hasDot ∧ fracDs.isEmpty then none
    else
      let hasExp := match cs3 with | c :: _ => c == 'e' || c == 'E' | [] => false
      let expPart : Option (Int × List Char) :=
        if hasExp then
          let cs4 := cs3.drop 1
          let (esign, cs5) :=
            match cs4 with
            | c :: rest =>
              if c == '-' then ((-1 : Int), rest)
              else if c == '+' then ((1 : Int), rest)
              else ((1 : Int), cs4)
            | [] => ((1 : Int), cs4)
          let (expDs, cs6) := cs5.span isDig
          if expDs.isEmpty then none else some (esign * (digitsToNat expDs : Int), cs6)
        else some (0, cs3)
      match expPart with
      | none => none
      | some (ex, rest) =>
        let mant : Int := (digitsToNat (intDs ++ fracDs) : Int)
        let mant := if neg then -mant else mant
        let net : Int := ex - (fracDs.length : Int)
        if 0 ≤ net then some (Json.num (mant * 10 ^ net.toNat) 0, rest)
        else some (Json.num mant (-net).toNat, rest)

mutual

/-- Parse one JSON value (fuel-indexed model of the recursive descent
performed by `json.loads`). -/
def parseJVal : Nat → List Char → Option (Json × List Char)
  | 0, _ => none
  | fuel + 1, cs =>
    match cs with
    | [] => none
    | c :: rest =>
      if c == lbrace then
        match skipWs rest with
        | d :: rest2 =>
          if d == rbrace then some (Json.obj [], rest2)
          else
            match parseJMembers fuel (skipWs rest) with
            | some (fields, rem) => some (Json.obj fields, rem)
            | none => none
        | [] => none
      else if c == '[' then
        match skipWs rest with
        | d :: rest2 =>
          if d == ']' then some (Json.arr [], rest2)
          else
            match parseJElems fuel (skipWs rest) with
            | some (elems, rem) => some (Json.arr elems, rem)
            | none => none
        | [] => none
      else if c == '"' then
        match parseJStr (fuel + 1) rest with
        | some (body, rem) => some (Json.str (String.mk body), rem)
        | none => none
      else if c == 't' then
        if rest.take 3 = ['r', 'u', 'e'] then some (Json.bool true, rest.drop 3) else none
      else if c == 'f' then
        if rest.take 4 = ['a', 'l', 's', 'e'] then some (Json.bool false, rest.drop 4) else none
      else if c == 'n' then
        if rest.take 3 = ['u', 'l', 'l'] then some (Json.null, rest.drop 3) else none
      else if c == '-' || isDig c then parseJNum cs
      else none

/-- Parse the members of a JSON object, positioned at the first key. -/
def parseJMembers : Nat → List Char → Option (List (String × Json) × List Char)
  | 0, _ => none
  | fuel + 1, cs =>
    match cs with
    | c :: rest =>
      if c == '"' then
        match parseJStr (fuel + 1) rest with
        | some (keyChars, rem1) =>
          match skipWs rem1 with
          | d :: rem2 =>
            if d == ':' then
              match parseJVal fuel (skipWs rem2) with
              | some (v, rem3) =>
                match skipWs rem3 with
                | e :: rem4 =>
                  if e == ',' then
                    match parseJMembers fuel (skipWs rem4) with
                    | some (fields, rem5) => some ((String.mk keyChars, v) :: fields, rem5)
                    | none => none
                  else if e == rbrace then some ([(String.mk keyChars, v)], rem4)
                  else none
                | [] => none
              | none => none
            else none
          | [] => none
        | none => none
      else none
    | [] => none

/-- Parse the elements of a JSON array, positioned at the first
element. -/
def parseJElems : Nat → List Char → Option (List Json × List Char)
  | 0, _ => none
  | fuel + 1, cs =>
    match parseJVal fuel cs with
    | some (v, rem1) =>
      match skipWs rem1 with
      | e :: rem2 =>
        if e == ',' then
          match parseJElems fuel (skipWs rem2) with
          | some (elems, rem3) => some (v :: elems, rem3)
          | none => none
        else if e == ']' then some ([v], rem2)
        else none
      | [] => none
    | none => none

end

/-- Model of `json.loads`: parse a complete JSON document; anything but
whitespace after the value is rejected (Python raises "Extra data"),
and a raise is modelled as `none`. -/
def jsonLoads (s : String) : Option Json :=
  let cs := skipWs s.toList
  match parseJVal (cs.length + 2) cs with
  | some (v, rest) => if (skipWs rest).isEmpty then some v else none
  | none => none

/-- Index of the last occurrence of a character in a list. -/
def lastIdxOf (c : Char) (cs : List Char) : Option Nat :=
  match cs.reverse.findIdx? (fun x => x == c) with
  | some i => some (cs.length - 1 - i)
  | none => none

/-- Model of `re.search(r'\x7b.*\x7d', response, re.DOTALL)`: the
leftmost match starts at the first left brace and, `.*` being greedy,
extends to the last right brace of the whole input; if the input has no
left brace followed (weakly) by a right brace there is no match. -/
def reSearchBraces : List Char → Option (List Char)
  | [] => none
  | c :: rest =>
    if c == lbrace then
      match lastIdxOf rbrace (c :: rest) with
      | some k => some ((c :: rest).take (k + 1))
      | none => none
    else reSearchBraces rest

/-- UTF-8 encoding of a Unicode code point (model of Python's
`str.encode('utf-8')`, byte values as naturals). -/
def utf8EncodeChar (n : Nat) : List Nat :=
  if n < 128 then [n]
  else if n < 2048 then [192 + n / 64, 128 + n % 64]
  else if n < 65536 then [224 + n / 4096, 128 + (n / 64) % 64, 128 + n % 64]
  else [240 + n / 262144, 128 + (n / 4096) % 64, 128 + (n / 64) % 64, 128 + n % 64]

/-- UTF-8 encoding of a string as a byte list. -/
def utf8Encode (s : String) : List Nat :=
  s.data.foldr (fun c acc => utf8EncodeChar c.toNat ++ acc) []

/-- Truncation to a 32-bit word. -/
def w32 (n : Nat) : Nat := n % 4294967296

/-- Right rotation of a 32-bit word. -/
def rotr (k x : Nat) : Nat := w32 ((x >>> k) ||| (x <<< (32 - k)))

/-- SHA-256 round constants (FIPS 180-4). -/
def sha256K : List Nat :=
  [1116352408, 1899447441, 3049323471, 3921009573, 961987163, 1508970993,
   2453635748, 2870763221, 3624381080, 310598401, 607225278, 1426881987,
   1925078388, 2162078206, 2614888103, 3248222580, 3835390401, 4022224774,
   264347078, 604807628, 770255983, 1249150122, 1555081692, 1996064986,
   2554220882, 2821834349, 2952996808, 3210313671, 3336571891, 3584528711,
   113926993, 338241895, 666307205, 773529912, 1294757372, 1396182291,
   1695183700, 1986661051, 2177026350, 2456956037, 2730485921, 2820302411,
   3259730800, 3345764771, 3516065817, 3600352804, 4094571909, 275423344,
   430227734, 506948616, 659060556, 883997877, 958139571, 1322822218,
   1537002063, 1747873779, 1955562222, 2024104815, 2227730452, 2361852424,
   2428436474, 2756734187, 3204031479, 3329325298]

/-- SHA-256 initial hash state (FIPS 180-4). -/
def sha256H0 : List Nat :=
  [1779033703, 3144134277, 1013904242, 2773480762, 1359893119, 2600822924,
   528734635, 1541459225]

/-- SHA-256 message padding: a 1-bit, zeros, and the 64-bit message
length in bits. -/
def sha256Pad (msg : List Nat) : List Nat :=
  let len := msg.length
  let zeros := (64 - ((len + 9) % 64)) % 64
  let bitLen := 8 * len
  msg ++ [128] ++ List.replicate zeros 0 ++
    ((List.range 8).map (fun i => (bitLen >>> (8 * (7 - i))) % 256))

/-- Split a list into chunks of the given size (fuel variant, so the
definition reduces in the kernel). -/
def chunksOfGo (k : Nat) : Nat → List Nat → List (List Nat)
  | 0, _ => []
  | _, [] => []
  | fuel + 1, x :: xs => ((x :: xs).take k) :: chunksOfGo k fuel ((x :: xs).drop k)

/-- Split a list into chunks of the given size. -/
def chunksOf (k : Nat) (l : List Nat) : List (List Nat) :=
  chunksOfGo k l.length l

/-- Big-endian 32-bit words of a 64-byte block. -/
def blockWords (block : List Nat) : List Nat :=
  (List.range 16).map (fun i =>
    (block.getD (4 * i) 0) * 16777216 + (block.getD (4 * i + 1) 0) * 65536 +
      (block.getD (4 * i + 2) 0) * 256 + block.getD (4 * i + 3) 0)

/-- SHA-256 message schedule: extend 16 words to 64. -/
def sha256Schedule (ws : List Nat) : List Nat :=
  (List.range 48).foldl
    (fun acc _ =>
      let n := acc.length
      let s0 :=
        let x := acc.getD (n - 15) 0
        (rotr 7 x) ^^^ (rotr 18 x) ^^^ (x >>> 3)
      let s1 :=
        let x := acc.getD (n - 2) 0
        (rotr 17 x) ^^^ (rotr 19 x) ^^^ (x >>> 10)
      acc ++ [w32 (acc.getD (n - 16) 0 + s0 + acc.getD (n - 7) 0 + s1)])
    ws

/-- One SHA-256 compression round. -/
def sha256Round (st : Nat × Nat × Nat × Nat × Nat × Nat × Nat × Nat) (kw : Nat × Nat) :
    Nat × Nat × Nat × Nat × Nat × Nat × Nat × Nat :=
  let (a, b, c, d, e, f, g, h) := st
  let (k, w) := kw
  let s1 := (rotr 6 e) ^^^ (rotr 11 e) ^^^ (rotr 25 e)
  let ch := (e &&& f) ^^^ ((4294967295 - e) &&& g)
  let t1 := w32 (h + s1 + ch + k + w)
  let s0 := (rotr 2 a) ^^^ (rotr 13 a) ^^^ (rotr 22 a)
  let mj := (a &&& b) ^^^ (a &&& c) ^^^ (b &&& c)
  let t2 := w32 (s0 + mj)
  (w32 (t1 + t2), a, b, c, w32 (d + t1), e, f, g)

/-- SHA-256 compression of one 64-byte block into the running state. -/
def sha256Compress (hs : List Nat) (block : List Nat) : List Nat :=
  let ws := sha256Schedule (blockWords block)
  let init : Nat × Nat × Nat × Nat × Nat × Nat × Nat × Nat :=
    (hs.getD 0 0, hs.getD 1 0, hs.getD 2 0, hs.getD 3 0,
     hs.getD 4 0, hs.getD 5 0, hs.getD 6 0, hs.getD 7 0)
  let (a, b, c, d, e, f, g, h) := (sha256K.zip ws).foldl sha256Round init
  [w32 (hs.getD 0 0 + a), w32 (hs.getD 1 0 + b), w32 (hs.getD 2 0 + c), w32 (hs.getD 3 0 + d),
   w32 (hs.getD 4 0 + e), w32 (hs.getD 5 0 + f), w32 (hs.getD 6 0 + g), w32 (hs.getD 7 0 + h)]

/-- Lowercase hexadecimal digit. -/
def hexChar (n : Nat) : Char :=
  if n < 10 then Char.ofNat (48 + n) else Char.ofNat (87 + n)

/-- Eight lowercase hex digits of a 32-bit word. -/
def hex8 (w : Nat) : List Char :=
  (List.range 8).map (fun i => hexChar ((w >>> (4 * (7 - i))) % 16))

/-- SHA-256 of a byte list as a lowercase hex string (model of
`hashlib.sha256(...).hexdigest()`). -/
def sha256Hex (msg : List Nat) : String :=
  let final := (chunksOf 64 (sha256Pad msg)).foldl sha256Compress sha256H0
  String.mk (final.foldr (fun w acc => hex8 w ++ acc) [])

/-- Embedding of `generate_content_hash` (`database.py`): the SHA-256
hex digest of the UTF-8 encoding of the content. -/
def generate_content_hash (content : String) : String :=
  sha256Hex (utf8Encode content)

/-- Decimal string of a mantissa/exponent number, the way Python's
`str()` prints the ints and finite decimal floats that occur here. -/
def pyNumRepr (m : Int) (e : Nat) : String :=
  let sign := if m < 0 then "-" else ""
  let ds := toString m.natAbs
  if e = 0 then sign ++ ds
  else
    let ds := if ds.length < e + 1 then String.mk (List.replicate (e + 1 - ds.length) '0') ++ ds else ds
    sign ++ ds.take (ds.length - e) ++ "." ++ ds.drop (ds.length - e)

/-- Pydantic v1 coercion into a `str` field: strings pass through,
numbers and booleans are rendered with `str()`, anything else is a
validation error. -/
def coerceStr : Json → Option String
  | .str s => some s
  | .num m e => some (pyNumRepr m e)
  | .bool b => some (if b then "True" else "False")
  | _ => none

/-- Model of Python's `float(s)` on a stripped decimal literal. -/
def pyFloatOfString (s : String) : Option ℚ :=
  let cs := (s.toList.dropWhile Char.isWhitespace).reverse.dropWhile Char.isWhitespace |>.reverse
  let (neg, cs1) :=
    match cs with
    | c :: rest => if c == '-' then (true, rest) else if c == '+' then (false, rest) else (false, cs)
    | [] => (false, cs)
  let (intDs, cs2) := cs1.span isDig
  let (fracDs, cs3) :=
    match cs2 with
    | c :: rest => if c == '.' then rest.span isDig else ([], cs2)
    | [] => ([], cs2)
  if intDs.isEmpty ∧ fracDs.isEmpty then none
  else
    let expPart : Option (Int × List Char) :=
      match cs3 with
      | c :: rest =>
        if c == 'e' || c == 'E' then
          let (esign, cs4) :=
            match rest with
            | d :: rest2 =>
              if d == '-' then ((-1 : Int), rest2)
              else if d == '+' then ((1 : Int), rest2)
              else ((1 : Int), rest)
            | [] => ((1 : Int), rest)
          let (expDs, cs5) := cs4.span isDig
          if expDs.isEmpty then none else some (esign * (digitsToNat expDs : Int), cs5)
        else some (0, cs3)
      | [] => some (0, cs3)
    match expPart with
    | none => none
    | some (ex, rest) =>
      if rest.isEmpty then
        let mant : Int := (digitsToNat (intDs ++ fracDs) : Int)
        let mant := if neg then -mant else mant
        let net : Int := ex - (fracDs.length : Int)
        if 0 ≤ net then some (Rat.divInt (mant * 10 ^ net.toNat) 1)
        else some (Rat.divInt mant (10 ^ (-net).toNat))
      else none

/-- Pydantic v1 coercion into a `float` field: numbers and booleans
coerce, numeric strings are parsed with `float()`, anything else is a
validation error. -/
def coerceQ : Json → Option ℚ
  | .num m e => some (Json.numVal m e)
  | .bool b => some (if b then 1 else 0)
  | .str s => pyFloatOfString s
  | _ => none

/-- Pydantic v1 coercion into a `List[str]` field. -/
def coerceStrList : Json → Option (List String)
  | .arr xs => xs.mapM coerceStr
  | _ => none

/-- Pydantic v1 coercion into a `Dict[str, List[str]]` field (the
incoming keys are JSON object keys, hence already strings). -/
def coerceGroups : Json → Option (List (String × List String))
  | .obj fs => (dictCollapse fs).mapM (fun p => (coerceStrList p.2).map (fun l => (p.1, l)))
  | _ => none

/-- Embedding of the pydantic model `ClassificationResponse`
(`main.py`). -/
structure ClassificationResponse where
  category : String
  confidence : ℚ
  priority : String
  status : String
  complexity : String
  estimated_time : String
  reasoning : String
deriving Repr, DecidableEq

/-- Embedding of the pydantic model `TaggingResponse` (`main.py`). -/
structure TaggingResponse where
  smart_tags : List String
  confidence : ℚ
  semantic_groups : List (String × List String)
  related_topics : List String
deriving Repr, DecidableEq

/-- Embedding of the pydantic model `AnalysisResponse` (`main.py`). -/
structure AnalysisResponse where
  entities : List String
  sentiment : String
  complexity_score : ℚ
  key_concepts : List String
  summary : String
  language : String
deriving Repr, DecidableEq

/-- Required field of a keyword-argument dict (pydantic raises a
ValidationError when the field is missing). -/
def jfield (d : List (String × Json)) (k : String) : Except String Json :=
  match jlookup d k with
  | some v => .ok v
  | none => .error ("field required: " ++ k)

/-- Pydantic validation of a single value against `str` (raising
variant of `coerceStr`). -/
def vStr (v : Json) : Except String String :=
  match coerceStr v with
  | some s => .ok s
  | none => .error "str expected"

/-- Pydantic validation of a single value against `float`. -/
def vQ (v : Json) : Except String ℚ :=
  match coerceQ v with
  | some q => .ok q
  | none => .error "float expected"

/-- Pydantic validation of a single value against `List[str]`. -/
def vStrList (v : Json) : Except String (List String) :=
  match coerceStrList v with
  | some l => .ok l
  | none => .error "list of str expected"

/-- Pydantic validation of a single value against `Dict[str, List[str]]`. -/
def vGroups (v : Json) : Except String (List (String × List String)) :=
  match coerceGroups v with
  | some g => .ok g
  | none => .error "dict of lists expected"

/-- Model of `ClassificationResponse(**d)`: pydantic v1 validation of
the parsed dict, raising (`.error`) when a required field is missing or
uncoercible, ignoring extra fields. -/
def ClassificationResponse.ofDict (d : List (String × Json)) : Except String ClassificationResponse := do
  let category ← vStr (← jfield d "category")
  let confidence ← vQ (← jfield d "confidence")
  let priority ← vStr (← jfield d "priority")
  let status ← vStr (← jfield d "status")
  let complexity ← vStr (← jfield d "complexity")
  let estimated_time ← vStr (← jfield d "estimated_time")
  let reasoning ← vStr (← jfield d "reasoning")
  .ok ⟨category, confidence, priority, status, complexity, estimated_time, reasoning⟩

/-- Model of `TaggingResponse(**d)`. -/
def TaggingResponse.ofDict (d : List (String × Json)) : Except String TaggingResponse := do
  let smart_tags ← vStrList (← jfield d "smart_tags")
  let confidence ← vQ (← jfield d "confidence")
  let semantic_groups ← vGroups (← jfield d "semantic_groups")
  let related_topics ← vStrList (← jfield d "related_topics")
  .ok ⟨smart_tags, confidence, semantic_groups, related_topics⟩

/-- Model of `AnalysisResponse(**d)`. -/
def AnalysisResponse.ofDict (d : List (String × Json)) : Except String AnalysisResponse := do
  let entities ← vStrList (← jfield d "entities")
  let sentiment ← vStr (← jfield d "sentiment")
  let complexity_score ← vQ (← jfield d "complexity_score")
  let key_concepts ← vStrList (← jfield d "key_concepts")
  let summary ← vStr (← jfield d "summary")
  let language ← vStr (← jfield d "language")
  .ok ⟨entities, sentiment, complexity_score, key_concepts, summary, language⟩

/-- Decimal JSON encoding of a rational: the denominator itself serves
as decimal exponent (every denominator of the form `2^a * 5^b` divides
`10 ^ den`, and every confidence and score in this development is such
a finite decimal, for which this encoding is exact). -/
def qToJson (q : ℚ) : Json :=
  if q.den = 1 then Json.num q.num 0
  else Json.num (q.num * ((10 : Int) ^ q.den / (q.den : Int))) q.den

/-- Model of `ClassificationResponse.dict()`. -/
def ClassificationResponse.toDict (r : ClassificationResponse) : List (String × Json) :=
  [("category", .str r.category), ("confidence", qToJson r.confidence),
   ("priority", .str r.priority), ("status", .str r.status),
   ("complexity", .str r.complexity), ("estimated_time", .str r.estimated_time),
   ("reasoning", .str r.reasoning)]

/-- Model of `TaggingResponse.dict()`. -/
def TaggingResponse.toDict (r : TaggingResponse) : List (String × Json) :=
  [("smart_tags", .arr (r.smart_tags.map .str)), ("confidence", qToJson r.confidence),
   ("semantic_groups", .obj (r.semantic_groups.map (fun p => (p.1, .arr (p.2.map .str))))),
   ("related_topics", .arr (r.related_topics.map .str))]

/-- Model of `AnalysisResponse.dict()`. -/
def AnalysisResponse.toDict (r : AnalysisResponse) : List (String × Json) :=
  [("entities", .arr (r.entities.map .str)), ("sentiment", .str r.sentiment),
   ("complexity_score", qToJson r.complexity_score),
   ("key_concepts", .arr (r.key_concepts.map .str)), ("summary", .str r.summary),
   ("language", .str r.language)]

/-- Embedding of the `keywords` tables of `PARA_CLASSIFICATION_MODEL`
(`main.py`), in source (insertion) order.  The other entries of the
table (`ai_patterns`, `priority_keywords`, `complexity_threshold`) are
never read by the service code and are omitted. -/
def PARA_CLASSIFICATION_MODEL : List (String × List String) :=
  [("01-Projects",
    ["project", "development", "build", "create", "task", "deadline", "work", "urgent",
     "launch", "release"]),
   ("02-Areas",
    ["management", "area", "business", "routine", "daily", "health", "finance", "manage",
     "process"]),
   ("03-Resources",
    ["material", "reference", "learning", "study", "information", "trend", "resource",
     "guide", "tutorial"]),
   ("04-Archives",
    ["completed", "archive", "organize", "done", "finished", "past", "historical"])]

/-- Python's `str.lower` (ASCII case folding, via the character list
so that the definition reduces in the kernel). -/
def pyLower (s : String) : String := String.mk (s.data.map Char.toLower)

/-- Python's string slice `s[:n]` (by characters, via the character
list so that the definition reduces in the kernel). -/
def pyTake (s : String) (n : Nat) : String := String.mk (s.data.take n)

/-- Python's substring containment `needle in hay`. -/
def strContainsSub (hay needle : String) : Bool :=
  let h := hay.toList
  let n := needle.toList
  (List.range (h.length + 1)).any (fun i => n.isPrefixOf (h.drop i))

/-- Embedding of `AIClassificationService._fallback_classification`
(`main.py`): return the first category of the table one of whose
keywords occurs in the lowercased content, else the `02-Areas`
default.  (Python's `str.lower` agrees with `String.toLower` on the
ASCII content used throughout.) -/
def fallback_classification (content : String) : ClassificationResponse :=
  let content_lower := pyLower content
  match PARA_CLASSIFICATION_MODEL.find? (fun rule => rule.2.any (fun kw => strContainsSub content_lower kw)) with
  | some rule =>
    ⟨rule.1, qdec 6 1, "normal", "active", "medium", "1 hour",
     "Rule-based classification fallback"⟩
  | none =>
    ⟨"02-Areas", qdec 5 1, "normal", "active", "medium", "1 hour",
     "Default classification to Areas"⟩

/-- Embedding of `_fallback_classification_data` (`main.py`). -/
def fallback_classification_data : List (String × Json) :=
  [("category", .str "02-Areas"), ("confidence", .num 5 1), ("priority", .str "normal"),
   ("status", .str "active"), ("complexity", .str "medium"),
   ("estimated_time", .str "1 hour"),
   ("reasoning", .str "Fallback classification due to parsing error")]

/-- Embedding of `_fallback_tagging_data` (`main.py`). -/
def fallback_tagging_data : List (String × Json) :=
  [("smart_tags", .arr [.str "content", .str "analysis", .str "knowledge"]),
   ("confidence", .num 3 1),
   ("semantic_groups", .obj [("general", .arr [.str "content", .str "analysis"])]),
   ("related_topics", .arr [.str "knowledge management"])]

/-- Embedding of `_fallback_analysis_data` (`main.py`). -/
def fallback_analysis_data : List (String × Json) :=
  [("entities", .arr [.str "content"]), ("sentiment", .str "neutral"),
   ("complexity_score", .num 5 1),
   ("key_concepts", .arr [.str "knowledge", .str "management"]),
   ("summary", .str "Basic content analysis completed."), ("language", .str "English")]

/-- Worker for `pySplitWs`: split on whitespace, accumulating the
current word reversed. -/
def splitWsAux : List Char → List Char → List String
  | [], acc => if acc.isEmpty then [] else [String.mk acc.reverse]
  | c :: rest, acc =>
    if c.isWhitespace then
      (if acc.isEmpty then [] else [String.mk acc.reverse]) ++ splitWsAux rest []
    else splitWsAux rest (c :: acc)

/-- Python's `str.split()` (split on whitespace runs, no empties). -/
def pySplitWs (s : String) : List String := splitWsAux s.data []

/-- The stop-word set of `_fallback_tagging` (`main.py`). -/
def common_words : List String :=
  ["the", "a", "an", "and", "or", "but", "in", "on", "at", "to", "for", "of", "with", "by"]

/-- Embedding of `AITaggingService._fallback_tagging` (`main.py`). -/
def fallback_tagging (content : String) : TaggingResponse :=
  let words := pySplitWs (pyLower content)
  let unique_words := words.filter (fun w => !(common_words.contains w) && decide (3 < w.length))
  ⟨unique_words.take 5, qdec 4 1, [("general", unique_words.take 3)],
   ["content analysis", "knowledge management"]⟩

/-- Embedding of `AIAnalysisService._fallback_analysis` (`main.py`);
the content argument is unused by the source body. -/
def fallback_analysis (_content : String) : AnalysisResponse :=
  ⟨["content"], "neutral", qdec 5 1, ["knowledge", "management"],
   "Content analysis completed with basic processing.", "English"⟩

/-- Shared parse skeleton of `_parse_classification_response`,
`_parse_tagging_response` and `_parse_analysis_response` (`main.py`):
extract the greedy first-brace-to-last-brace span, `json.loads` it, and
fall back to the task's fixed data on any failure.  A successful parse
of a span starting with a brace is always an object; the impossible
non-object case maps to the same fallback. -/
def parseBackendReply (response : String) (fallbackData : List (String × Json)) :
    List (String × Json) :=
  match reSearchBraces response.toList with
  | some span =>
    match jsonLoads (String.mk span) with
    | some (.obj fields) => fields
    | some _ => fallbackData
    | none => fallbackData
  | none => fallbackData

/-- Embedding of `_parse_classification_response` (`main.py`). -/
def parse_classification_response (response : String) : List (String × Json) :=
  parseBackendReply response fallback_classification_data

/-- Embedding of `_parse_tagging_response` (`main.py`). -/
def parse_tagging_response (response : String) : List (String × Json) :=
  parseBackendReply response fallback_tagging_data

/-- Embedding of `_parse_analysis_response` (`main.py`). -/
def parse_analysis_response (response : String) : List (String × Json) :=
  parseBackendReply response fallback_analysis_data

/-- Python truthiness-based default `x or default` for the optional
string-rendered arguments interpolated into prompts. -/
def pyOr (o : Option String) (default : String) : String :=
  match o with
  | some s => if s = "" then default else s
  | none => default

/-- Embedding of `_create_classification_prompt` (`main.py`); the
optional context dict is abstracted by its string rendering. -/
def create_classification_prompt (content : String) (context : Option String) : String :=
  "\n        Analyze the following content and classify it according to the P.A.R.A methodology:\n        \n        Content: " ++
    content ++
    "\n        \n        Context: " ++
    pyOr context "None" ++
    "\n        \n        P.A.R.A Categories:\n        1. 01-Projects: Tasks with clear deadlines and specific deliverables\n        2. 02-Areas: Areas that need ongoing maintenance and management\n        3. 03-Resources: Information that may be useful in the future\n        4. 04-Archives: Completed projects or inactive areas\n        \n        Please respond with a JSON object containing:\n        - category: The P.A.R.A category (01-Projects, 02-Areas, 03-Resources, 04-Archives)\n        - confidence: Confidence score (0-1)\n        - priority: Priority level (urgent, important, normal)\n        - status: Status (active, completed, on-hold)\n        - complexity: Complexity level (low, medium, high)\n        - estimated_time: Estimated time to complete/process (e.g., \"30 minutes\", \"2 hours\", \"1 day\")\n        - reasoning: Brief explanation of the classification decision\n        "

/-- Embedding of `_create_tagging_prompt` (`main.py`). -/
def create_tagging_prompt (content : String) (title category analysis : Option String) : String :=
  "\n        Generate smart tags for the following content:\n        \n        Title: " ++
    pyOr title "No title" ++
    "\n        Content: " ++
    pyTake content 500 ++
    "...\n        Category: " ++
    pyOr category "Unknown" ++
    "\n        Analysis: " ++
    pyOr analysis "None" ++
    "\n        \n        Please respond with a JSON object containing:\n        - smart_tags: List of 5-10 relevant, specific tags\n        - confidence: Confidence score (0-1)\n        - semantic_groups: Object grouping related tags (e.g., \x7b\"technical\": [\"api\", \"database\"], \"business\": [\"strategy\", \"planning\"]\x7d)\n        - related_topics: List of 3-5 related topics for further exploration\n        \n        Focus on:\n        - Specific, actionable tags\n        - Technical terms when appropriate\n        - Business context\n        - Time sensitivity\n        - Complexity indicators\n        "

/-- Embedding of `_create_analysis_prompt` (`main.py`). -/
def create_analysis_prompt (content : String) (title context : Option String) : String :=
  "\n        Analyze the following content and provide insights:\n        \n        Title: " ++
    pyOr title "No title" ++
    "\n        Content: " ++
    pyTake content 1000 ++
    "...\n        Context: " ++
    pyOr context "None" ++
    "\n        \n        Please respond with a JSON object containing:\n        - entities: List of important entities (people, places, organizations, concepts)\n        - sentiment: Overall sentiment (positive, negative, neutral)\n        - complexity_score: Complexity score (0-1, where 1 is most complex)\n        - key_concepts: List of 3-5 key concepts or themes\n        - summary: Brief 2-3 sentence summary\n        - language: Detected language (e.g., \"English\", \"Spanish\")\n        "

/-- Observable side effects of a dispatch: a backend invocation, or a
committed health-status record (`ai_service_status` row change). -/
inductive Event where
  | callBackend (service : String) (prompt : String)
  | healthUpdate (service : String) (status : String)
deriving DecidableEq, Repr

/-- A row of `content_classifications` (`database.py`).  The primary
key is modelled as a `Nat`; field values keep the raw Python values
assigned by `save_classification`, hence `Json`. -/
structure ClassRow where
  id : Nat
  content_hash : String
  content_preview : String
  category : Json
  confidence : Json
  priority : Json
  status : Json
  complexity : Json
  estimated_time : Json
  reasoning : Json
  ai_service_used : String
deriving Repr, DecidableEq

/-- A row of `content_tags` (`database.py`). -/
structure TagRow where
  id : Nat
  classification_id : Nat
  tag : Json
  confidence : Json
  semantic_group : Json
deriving Repr, DecidableEq

/-- A row of `content_analyses` (`database.py`). -/
structure AnalysisRow where
  classification_id : Nat
  entities : Json
  sentiment : Json
  complexity_score : Json
  key_concepts : Json
  summary : Json
  language : Json
  ai_service_used : String
deriving Repr, DecidableEq

/-- A row of `ai_service_status` (`database.py`). -/
structure StatusRow where
  service_name : String
  status : String
  response_time_ms : Option Int
  error_count : Int
  success_count : Int
deriving Repr, DecidableEq

/-- A row of `processing_logs` (`database.py`), restricted to the
fields the manager writes. -/
structure LogRow where
  content_hash : String
  processing_type : String
  status : String
  processing_time_ms : Nat
  ai_service_used : Option String
deriving Repr, DecidableEq

/-- The relational store, with fresh-id counters for the two tables
whose primary keys matter to the claims. -/
structure DB where
  classifications : List ClassRow
  tags : List TagRow
  analyses : List AnalysisRow
  service_status : List StatusRow
  logs : List LogRow
  next_class_id : Nat
  next_tag_id : Nat
deriving Repr, DecidableEq

/-- The empty store. -/
def emptyDB : DB := ⟨[], [], [], [], [], 0, 0⟩

/-- The environment of a dispatch: the configured primary/secondary
backend names, the backend oracle (what each `_call_ai_service`
invocation returns or raises), fault switches for the three kinds of
store access, and the measured processing time (irrelevant to every
claim, threaded for fidelity). -/
structure Env where
  primary_service : String
  fallback_service : String
  callService : String → String → Except String String
  readFault : Bool
  writeFault : Bool
  statusFault : Bool
  ptime : Nat

/-- The tag dicts of a `get_classification_history` result. -/
structure TagEntry where
  tag : Json
  confidence : Json
  group : Json
deriving Repr, DecidableEq

/-- The analysis dict of a `get_classification_history` result. -/
structure AnalysisEntry where
  entities : Json
  sentiment : Json
  complexity_score : Json
  key_concepts : Json
  summary : Json
  language : Json
deriving Repr, DecidableEq

/-- The dict returned by `get_classification_history` (`db_utils.py`),
timestamps omitted. -/
structure HistoryEntry where
  id : Nat
  category : Json
  confidence : Json
  priority : Json
  status : Json
  complexity : Json
  estimated_time : Json
  reasoning : Json
  ai_service_used : String
  tags : List TagEntry
  analysis : Option AnalysisEntry
deriving Repr, DecidableEq

/-- Embedding of `DatabaseManager.get_classification_history`
(`db_utils.py`): on a raised read (`readFault`) the `except` clause
returns `None`; otherwise the first row matching the hash is rendered
as a dict together with its tags and analysis. -/
def get_classification_history (readFault : Bool) (db : DB) (content_hash : String) :
    Option HistoryEntry :=
  if readFault then none
  else
    match db.classifications.find? (fun r => r.content_hash == content_hash) with
    | none => none
    | some c =>
      some
        { id := c.id, category := c.category, confidence := c.confidence,
          priority := c.priority, status := c.status, complexity := c.complexity,
          estimated_time := c.estimated_time, reasoning := c.reasoning,
          ai_service_used := c.ai_service_used,
          tags := (db.tags.filter (fun t => t.classification_id == c.id)).map
            (fun t => ⟨t.tag, t.confidence, t.semantic_group⟩),
          analysis := (db.analyses.find? (fun a => a.classification_id == c.id)).map
            (fun a => ⟨a.entities, a.sentiment, a.complexity_score, a.key_concepts,
              a.summary, a.language⟩) }

/-- Replace the first row matching the hash (the session mutates the
`.first()` result in place). -/
def updateFirstClass (l : List ClassRow) (h : String) (f : ClassRow → ClassRow) : List ClassRow :=
  match l with
  | [] => []
  | r :: rs => if r.content_hash == h then f r :: rs else r :: updateFirstClass rs h f

/-- The in-place field update `save_classification` applies to an
existing row (`db_utils.py`): each field takes the payload's value when
the key is present, else keeps the row's value. -/
def classUpd (classification_data : List (String × Json)) (ai_service : String)
    (x : ClassRow) : ClassRow :=
  { x with
    category := jgetD classification_data "category" x.category,
    confidence := jgetD classification_data "confidence" x.confidence,
    priority := jgetD classification_data "priority" x.priority,
    status := jgetD classification_data "status" x.status,
    complexity := jgetD classification_data "complexity" x.complexity,
    estimated_time := jgetD classification_data "estimated_time" x.estimated_time,
    reasoning := jgetD classification_data "reasoning" x.reasoning,
    ai_service_used := ai_service }

/-- The fresh row `save_classification` inserts (`db_utils.py`), with
the source's field defaults and the truncated content preview. -/
def classNewRow (db : DB) (content : String) (classification_data : List (String × Json))
    (ai_service : String) : ClassRow :=
  { id := db.next_class_id,
    content_hash := generate_content_hash content,
    content_preview := if 500 < content.length then pyTake content 500 ++ "..." else content,
    category := jgetD classification_data "category" (.str "02-Areas"),
    confidence := jgetD classification_data "confidence" (.num 5 1),
    priority := jgetD classification_data "priority" (.str "normal"),
    status := jgetD classification_data "status" (.str "active"),
    complexity := jgetD classification_data "complexity" (.str "medium"),
    estimated_time := jgetD classification_data "estimated_time" (.str "1 hour"),
    reasoning := jgetD classification_data "reasoning" (.str ""),
    ai_service_used := ai_service }

/-- Transaction body of `DatabaseManager.save_classification`
(`db_utils.py`): update the first existing row for the content hash in
place, or insert a fresh row with the source's field defaults; a
processing log entry is added; returns the classification id. -/
def save_classification_core (db : DB) (content : String)
    (classification_data : List (String × Json)) (ai_service : String)
    (processing_time_ms : Nat) : DB × Nat :=
  let content_hash := generate_content_hash content
  let logRow : LogRow := ⟨content_hash, "classification", "success", processing_time_ms, some ai_service⟩
  match db.classifications.find? (fun r => r.content_hash == content_hash) with
  | some existing =>
    ({ db with
       classifications := updateFirstClass db.classifications content_hash
         (classUpd classification_data ai_service),
       logs := db.logs ++ [logRow] }, existing.id)
  | none =>
    ({ db with
       classifications := db.classifications ++ [classNewRow db content classification_data ai_service],
       next_class_id := db.next_class_id + 1,
       logs := db.logs ++ [logRow] }, db.next_class_id)

/-- Embedding of `DatabaseManager.save_classification` (`db_utils.py`):
a raised write (`writeFault`) aborts the transaction, leaves the store
unchanged and is re-raised to the caller. -/
def save_classification (writeFault : Bool) (db : DB) (content : String)
    (classification_data : List (String × Json)) (ai_service : String)
    (processing_time_ms : Nat) : Except String (DB × Nat) :=
  if writeFault then .error "database write failure"
  else .ok (save_classification_core db content classification_data ai_service processing_time_ms)

/-- Python iteration (`for tag in ...`) over a JSON value: lists yield
elements, strings yield characters, dicts yield keys, everything else
raises `TypeError`. -/
def pyIter : Json → Except String (List Json)
  | .arr xs => .ok xs
  | .str s => .ok (s.data.map (fun c => .str (String.mk [c])))
  | .obj fs => .ok ((dictCollapse fs).map (fun p => .str p.1))
  | _ => .error "TypeError: not iterable"

/-- The per-tag `semantic_group` value of `save_tags` (`db_utils.py`):
`tags_data.get('semantic_groups', {}).get('general', 'general')`; the
second `.get` raises `AttributeError` when the first returns a
non-dict. -/
def tagSemanticGroup (tags_data : List (String × Json)) : Except String Json :=
  match jgetD tags_data "semantic_groups" (Json.obj []) with
  | .obj fs => .ok (jgetD fs "general" (Json.str "general"))
  | _ => .error "AttributeError: get"

/-- Transaction body of `DatabaseManager.save_tags` (`db_utils.py`):
delete every tag row of the classification, then insert one row per
element of `smart_tags` (all sharing the payload's confidence and
`general` semantic group); the whole transaction aborts when iteration
or the group lookup raises.  The group expression is evaluated inside
the loop, hence only when at least one tag is inserted. -/
def save_tags_core (db : DB) (classification_id : Nat)
    (tags_data : List (String × Json)) (ai_service : String)
    (processing_time_ms : Nat) : Except String DB :=
  let remaining := db.tags.filter (fun r => !(r.classification_id == classification_id))
  match pyIter (jgetD tags_data "smart_tags" (Json.arr [])) with
  | .error e => .error e
  | .ok elems =>
    let logRow : LogRow := ⟨"", "tagging", "success", processing_time_ms, some ai_service⟩
    if elems.isEmpty then
      .ok { db with tags := remaining, logs := db.logs ++ [logRow] }
    else
      match tagSemanticGroup tags_data with
      | .error e => .error e
      | .ok grp =>
        let conf := jgetD tags_data "confidence" (Json.num 5 1)
        let newRows := elems.enum.map (fun p =>
          TagRow.mk (db.next_tag_id + p.1) classification_id p.2 conf grp)
        .ok { db with
              tags := remaining ++ newRows,
              next_tag_id := db.next_tag_id + elems.length,
              logs := db.logs ++ [logRow] }

/-- Embedding of `DatabaseManager.save_tags` (`db_utils.py`): raised
writes are re-raised to the caller. -/
def save_tags (writeFault : Bool) (db : DB) (classification_id : Nat)
    (tags_data : List (String × Json)) (ai_service : String)
    (processing_time_ms : Nat) : Except String DB :=
  if writeFault then .error "database write failure"
  else save_tags_core db classification_id tags_data ai_service processing_time_ms

/-- Replace the first analysis row of the classification. -/
def updateFirstAnalysis (l : List AnalysisRow) (cid : Nat) (f : AnalysisRow → AnalysisRow) :
    List AnalysisRow :=
  match l with
  | [] => []
  | r :: rs => if r.classification_id == cid then f r :: rs else r :: updateFirstAnalysis rs cid f

/-- Transaction body of `DatabaseManager.save_analysis` (`db_utils.py`):
update the first existing analysis row of the classification in place
(with the source's `get` defaults), or insert a fresh one. -/
def save_analysis_core (db : DB) (classification_id : Nat)
    (analysis_data : List (String × Json)) (ai_service : String)
    (processing_time_ms : Nat) : DB :=
  let upd := fun (r : AnalysisRow) =>
    { r with
      entities := jgetD analysis_data "entities" (.arr []),
      sentiment := jgetD analysis_data "sentiment" (.str "neutral"),
      complexity_score := jgetD analysis_data "complexity_score" (.num 5 1),
      key_concepts := jgetD analysis_data "key_concepts" (.arr []),
      summary := jgetD analysis_data "summary" (.str ""),
      language := jgetD analysis_data "language" (.str "English"),
      ai_service_used := ai_service }
  let logRow : LogRow := ⟨"", "analysis", "success", processing_time_ms, some ai_service⟩
  match db.analyses.find? (fun a => a.classification_id == classification_id) with
  | some _ =>
    { db with
      analyses := updateFirstAnalysis db.analyses classification_id upd,
      logs := db.logs ++ [logRow] }
  | none =>
    { db with
      analyses := db.analyses ++
        [⟨classification_id, jgetD analysis_data "entities" (.arr []),
          jgetD analysis_data "sentiment" (.str "neutral"),
          jgetD analysis_data "complexity_score" (.num 5 1),
          jgetD analysis_data "key_concepts" (.arr []),
          jgetD analysis_data "summary" (.str ""),
          jgetD analysis_data "language" (.str "English"), ai_service⟩],
      logs := db.logs ++ [logRow] }

/-- Embedding of `DatabaseManager.save_analysis` (`db_utils.py`):
raised writes are re-raised to the caller. -/
def save_analysis (writeFault : Bool) (db : DB) (classification_id : Nat)
    (analysis_data : List (String × Json)) (ai_service : String)
    (processing_time_ms : Nat) : Except String DB :=
  if writeFault then .error "database write failure"
  else .ok (save_analysis_core db classification_id analysis_data ai_service processing_time_ms)

/-- Replace the first status row of the service. -/
def updateFirstStatus (l : List StatusRow) (name : String) (f : StatusRow → StatusRow) :
    List StatusRow :=
  match l with
  | [] => []
  | r :: rs => if r.service_name == name then f r :: rs else r :: updateFirstStatus rs name f

/-- Embedding of `DatabaseManager.update_ai_service_status`
(`db_utils.py`): increment the counters of the first row of the
service (or insert one); its `except` clause swallows every raise
(`statusFault`), leaving the store unchanged, so the caller never sees
an error.  The returned event records a committed status update. -/
def update_ai_service_status (statusFault : Bool) (db : DB) (service_name status : String)
    (response_time_ms : Option Int) (error_count success_count : Int) : DB × List Event :=
  if statusFault then (db, [])
  else
    match db.service_status.find? (fun r => r.service_name == service_name) with
    | some _ =>
      ({ db with
         service_status := updateFirstStatus db.service_status service_name (fun r =>
           { r with
             status := status, response_time_ms := response_time_ms,
             error_count := r.error_count + error_count,
             success_count := r.success_count + success_count }) },
       [.healthUpdate service_name status])
    | none =>
      ({ db with
         service_status := db.service_status ++
           [⟨service_name, status, response_time_ms, error_count, success_count⟩] },
       [.healthUpdate service_name status])

/-- Validation performed by the keyword-argument construction
`ClassificationResponse(category=..., ...)` on the cache-hit path of
`classify_content` (`main.py`). -/
def respOfHistory (e : HistoryEntry) : Except String ClassificationResponse := do
  let category ← vStr e.category
  let confidence ← vQ e.confidence
  let priority ← vStr e.priority
  let status ← vStr e.status
  let complexity ← vStr e.complexity
  let estimated_time ← vStr e.estimated_time
  let reasoning ← vStr e.reasoning
  .ok ⟨category, confidence, priority, status, complexity, estimated_time, reasoning⟩

/-- Numeric value of a JSON value under Python addition (`sum` adds
ints, floats and bools; everything else raises `TypeError`). -/
def jNumVal : Json → Option ℚ
  | .num m e => some (Json.numVal m e)
  | .bool b => some (if b then 1 else 0)
  | _ => none

/-- Python's `sum(...)` over JSON values, starting from `0`. -/
def pySumQ (l : List Json) : Option ℚ :=
  l.foldlM (fun acc j => (jNumVal j).map (fun q => acc + q)) (0 : ℚ)

/-- Python dict keys must be hashable: lists and dicts raise. -/
def isUnhashable : Json → Bool
  | .arr _ => true
  | .obj _ => true
  | _ => false

/-- Python dict construction over JSON keys (first occurrence fixes the
position, last occurrence fixes the value). -/
def jdictCollapse (pairs : List (Json × Json)) : List (Json × Json) :=
  pairs.foldl
    (fun acc p =>
      if acc.any (fun q => q.1 == p.1) then
        acc.map (fun q => if q.1 == p.1 then (q.1, p.2) else q)
      else acc ++ [p])
    []

/-- The cache-hit branch of `generate_smart_tags` (`main.py`): rebuild
a `TaggingResponse` from the stored tag rows — the tag names, the
arithmetic mean of the stored per-tag confidences, a singleton group
per stored group name, and an empty `related_topics` list. -/
def cachedTaggingResponse (tags : List TagEntry) : Except String TaggingResponse := do
  let smart ← (tags.map (fun t => t.tag)).mapM (fun v => vStr v)
  let total ←
    match pySumQ (tags.map (fun t => t.confidence)) with
    | some q => Except.ok q
    | none => Except.error "TypeError: unsupported operand"
  let conf := if tags.isEmpty then qdec 5 1 else total / (tags.length : ℚ)
  if tags.any (fun t => isUnhashable t.group) then
    Except.error "TypeError: unhashable type"
  else
    let pairs := jdictCollapse (tags.map (fun t => (t.group, Json.arr [t.tag])))
    let groups ← pairs.mapM (fun p => do
      let k ← vStr p.1
      let v ← vStrList p.2
      pure (k, v))
    pure ⟨smart, conf, groups, []⟩

/-- The cache-hit branch of `analyze_content` (`main.py`): rebuild an
`AnalysisResponse` from the stored analysis row. -/
def cachedAnalysisResponse (a : AnalysisEntry) : Except String AnalysisResponse := do
  let entities ← vStrList a.entities
  let sentiment ← vStr a.sentiment
  let complexity_score ← vQ a.complexity_score
  let key_concepts ← vStrList a.key_concepts
  let summary ← vStr a.summary
  let language ← vStr a.language
  pure ⟨entities, sentiment, complexity_score, key_concepts, summary, language⟩

/-- Outcome of one tier attempt: the events it caused, the store it
left behind (saves commit before response validation, so a failed
attempt may still have written), and its result or raised error. -/
structure Attempt (R : Type) where
  events : List Event
  db : DB
  result : Except String R

/-- One tier of `classify_content`'s try chain (`main.py`): call the
backend, parse the reply (non-throwing), save the parsed dict, record
the health update, then build `ClassificationResponse(**classification)`
— any raise inside falls through to the caller's next tier. -/
def classifyAttempt (env : Env) (db : DB) (content prompt service : String) :
    Attempt ClassificationResponse :=
  match env.callService service prompt with
  | .error e => ⟨[.callBackend service prompt], db, .error e⟩
  | .ok response =>
    let classification := parse_classification_response response
    match save_classification env.writeFault db content classification service env.ptime with
    | .error e => ⟨[.callBackend service prompt], db, .error e⟩
    | .ok saved =>
      let u := update_ai_service_status env.statusFault saved.1 service "active"
        (some (env.ptime : Int)) 0 1
      ⟨.callBackend service prompt :: u.2, u.1, ClassificationResponse.ofDict classification⟩

/-- Embedding of `AIClassificationService.classify_content`
(`main.py`): serve a stored classification for the content hash when
one exists; otherwise try the primary tier, on any raise the secondary
tier with the identical prompt, and on a second raise store and return
the rule-based fallback.  Results are triples of response, store and
event trace. -/
def classify_content (env : Env) (db : DB) (content : String) (context : Option String) :
    Except String (ClassificationResponse × DB × List Event) :=
  let content_hash := generate_content_hash content
  match get_classification_history env.readFault db content_hash with
  | some existing =>
    match respOfHistory existing with
    | .ok resp => .ok (resp, db, [])
    | .error e => .error e
  | none =>
    let prompt := create_classification_prompt content context
    let a1 := classifyAttempt env db content prompt env.primary_service
    match a1.result with
    | .ok resp => .ok (resp, a1.db, a1.events)
    | .error _ =>
      let a2 := classifyAttempt env a1.db content prompt env.fallback_service
      match a2.result with
      | .ok resp => .ok (resp, a2.db, a1.events ++ a2.events)
      | .error _ =>
        let fallback_result := fallback_classification content
        match save_classification env.writeFault a2.db content fallback_result.toDict
            "fallback" env.ptime with
        | .error e => .error e
        | .ok saved =>
          let u := update_ai_service_status env.statusFault saved.1 "fallback" "active"
            (some (env.ptime : Int)) 0 1
          .ok (fallback_result, u.1, a1.events ++ a2.events ++ u.2)

/-- One tier of `generate_smart_tags`'s try chain (`main.py`): call
the backend, parse, save the tags when a classification row exists,
record the health update, then build `TaggingResponse(**tags_data)`. -/
def taggingAttempt (env : Env) (db : DB) (existing : Option HistoryEntry)
    (prompt service : String) : Attempt TaggingResponse :=
  match env.callService service prompt with
  | .error e => ⟨[.callBackend service prompt], db, .error e⟩
  | .ok response =>
    let tags_data := parse_tagging_response response
    let saved : Except String DB :=
      match existing with
      | some ex => save_tags env.writeFault db ex.id tags_data service env.ptime
      | none => .ok db
    match saved with
    | .error e => ⟨[.callBackend service prompt], db, .error e⟩
    | .ok db1 =>
      let u := update_ai_service_status env.statusFault db1 service "active"
        (some (env.ptime : Int)) 0 1
      ⟨.callBackend service prompt :: u.2, u.1, TaggingResponse.ofDict tags_data⟩

/-- The dispatch phase of `generate_smart_tags` (`main.py`): primary
tier, then secondary tier, then the local keyword fallback — which
saves the fallback tags when a classification row exists but records
no health update. -/
def tagDispatch (env : Env) (db : DB) (existing : Option HistoryEntry) (content : String)
    (title category analysis : Option String) :
    Except String (TaggingResponse × DB × List Event) :=
  let prompt := create_tagging_prompt content title category analysis
  let a1 := taggingAttempt env db existing prompt env.primary_service
  match a1.result with
  | .ok resp => .ok (resp, a1.db, a1.events)
  | .error _ =>
    let a2 := taggingAttempt env a1.db existing prompt env.fallback_service
    match a2.result with
    | .ok resp => .ok (resp, a2.db, a1.events ++ a2.events)
    | .error _ =>
      let fallback_result := fallback_tagging content
      let saved : Except String DB :=
        match existing with
        | some ex => save_tags env.writeFault a2.db ex.id fallback_result.toDict "fallback" env.ptime
        | none => .ok a2.db
      match saved with
      | .error e => .error e
      | .ok db3 => .ok (fallback_result, db3, a1.events ++ a2.events)

/-- Embedding of `AITaggingService.generate_smart_tags` (`main.py`):
serve a rebuilt response when the stored classification already has
tags, otherwise dispatch through the tiers. -/
def generate_smart_tags (env : Env) (db : DB) (content : String)
    (title category analysis : Option String) :
    Except String (TaggingResponse × DB × List Event) :=
  let content_hash := generate_content_hash content
  match get_classification_history env.readFault db content_hash with
  | some ex =>
    if ex.tags.isEmpty then tagDispatch env db (some ex) content title category analysis
    else
      match cachedTaggingResponse ex.tags with
      | .ok resp => .ok (resp, db, [])
      | .error e => .error e
  | none => tagDispatch env db none content title category analysis

/-- One tier of `analyze_content`'s try chain (`main.py`). -/
def analysisAttempt (env : Env) (db : DB) (existing : Option HistoryEntry)
    (prompt service : String) : Attempt AnalysisResponse :=
  match env.callService service prompt with
  | .error e => ⟨[.callBackend service prompt], db, .error e⟩
  | .ok response =>
    let analysis_data := parse_analysis_response response
    let saved : Except String DB :=
      match existing with
      | some ex => save_analysis env.writeFault db ex.id analysis_data service env.ptime
      | none => .ok db
    match saved with
    | .error e => ⟨[.callBackend service prompt], db, .error e⟩
    | .ok db1 =>
      let u := update_ai_service_status env.statusFault db1 service "active"
        (some (env.ptime : Int)) 0 1
      ⟨.callBackend service prompt :: u.2, u.1, AnalysisResponse.ofDict analysis_data⟩

/-- The dispatch phase of `analyze_content` (`main.py`): primary tier,
secondary tier, then the fixed local fallback — which saves the
analysis when a classification row exists but records no health
update. -/
def analysisDispatch (env : Env) (db : DB) (existing : Option HistoryEntry) (content : String)
    (title context : Option String) :
    Except String (AnalysisResponse × DB × List Event) :=
  let prompt := create_analysis_prompt content title context
  let a1 := analysisAttempt env db existing prompt env.primary_service
  match a1.result with
  | .ok resp => .ok (resp, a1.db, a1.events)
  | .error _ =>
    let a2 := analysisAttempt env a1.db existing prompt env.fallback_service
    match a2.result with
    | .ok resp => .ok (resp, a2.db, a1.events ++ a2.events)
    | .error _ =>
      let fallback_result := fallback_analysis content
      let saved : Except String DB :=
        match existing with
        | some ex => save_analysis env.writeFault a2.db ex.id fallback_result.toDict "fallback" env.ptime
        | none => .ok a2.db
      match saved with
      | .error e => .error e
      | .ok db3 => .ok (fallback_result, db3, a1.events ++ a2.events)

/-- Embedding of `AIAnalysisService.analyze_content` (`main.py`):
serve a rebuilt response when the stored classification already has an
analysis, otherwise dispatch through the tiers. -/
def analyze_content (env : Env) (db : DB) (content : String) (title context : Option String) :
    Except String (AnalysisResponse × DB × List Event) :=
  let content_hash := generate_content_hash content
  match get_classification_history env.readFault db content_hash with
  | some ex =>
    match ex.analysis with
    | some a =>
      match cachedAnalysisResponse a with
      | .ok resp => .ok (resp, db, [])
      | .error e => .error e
    | none => analysisDispatch env db (some ex) content title context
  | none => analysisDispatch env db none content title context

/-- The health-update events of a trace. -/
def healthEvents (ev : List Event) : List Event :=
  ev.filter (fun e => match e with | .healthUpdate _ _ => true | _ => false)

set_option maxRecDepth 400000

deriving instance DecidableEq for Except

/-- An environment in which every backend invocation raises (both
remote backends unreachable) and the store is healthy. -/
def bothFailEnv : Env :=
  ⟨"anthropic", "openai", fun _ _ => .error "backend unreachable", false, false, false, 5⟩

/-- Generic: `find?` skips a prefix in which nothing matches. -/
theorem find?_append_none {α : Type} (p : α → Bool) (l₁ l₂ : List α)
    (h : l₁.find? p = none) : (l₁ ++ l₂).find? p = l₂.find? p := by
  induction l₁ with
  | nil => rfl
  | cons a l ih =>
    cases hp : p a with
    | true =>
      rw [List.find?_cons_of_pos _ hp] at h
      exact absurd h (by simp)
    | false =>
      rw [List.find?_cons_of_neg _ (by simp [hp])] at h
      rw [List.cons_append, List.find?_cons_of_neg _ (by simp [hp])]
      exact ih h

/-- The trace component of a health-status update: one committed
record, unless the internal `except` swallowed a raise. -/
theorem update_status_events (f : Bool) (db : DB) (n s : String) (rt : Option Int)
    (ec sc : Int) :
    (update_ai_service_status f db n s rt ec sc).2 =
      if f then [] else [.healthUpdate n s] := by
  cases f with
  | true => rfl
  | false =>
    rw [update_ai_service_status]
    simp only [Bool.false_eq_true, if_false]
    cases db.service_status.find? (fun r => r.service_name == n) <;> rfl

/-- A health-status update touches only the `ai_service_status`
table. -/
theorem update_status_classifications (f : Bool) (db : DB) (n s : String) (rt : Option Int)
    (ec sc : Int) :
    (update_ai_service_status f db n s rt ec sc).1.classifications = db.classifications ∧
    (update_ai_service_status f db n s rt ec sc).1.tags = db.tags ∧
    (update_ai_service_status f db n s rt ec sc).1.analyses = db.analyses := by
  cases f with
  | true => exact ⟨rfl, rfl, rfl⟩
  | false =>
    rw [update_ai_service_status]
    simp only [Bool.false_eq_true, if_false]
    cases db.service_status.find? (fun r => r.service_name == n) <;> exact ⟨rfl, rfl, rfl⟩

/-- `healthEvents` distributes over traces. -/
theorem healthEvents_append (a b : List Event) :
    healthEvents (a ++ b) = healthEvents a ++ healthEvents b := by
  simp [healthEvents, List.filter_append]

/-- Backend invocations are not health updates. -/
theorem healthEvents_call (s p : String) (rest : List Event) :
    healthEvents (Event.callBackend s p :: rest) = healthEvents rest := rfl

/-- A failed backend call leaves only the invocation event. -/
theorem classifyAttempt_error (env : Env) (db : DB) (content prompt service e : String)
    (h : env.callService service prompt = .error e) :
    classifyAttempt env db content prompt service = ⟨[.callBackend service prompt], db, .error e⟩ := by
  rw [classifyAttempt, h]

/-- A successful backend call with a healthy store: parse, save, record
health, validate. -/
theorem classifyAttempt_ok (env : Env) (db : DB) (content prompt service r : String)
    (hw : env.writeFault = false) (h : env.callService service prompt = .ok r) :
    classifyAttempt env db content prompt service =
      ⟨.callBackend service prompt ::
        (update_ai_service_status env.statusFault
          (save_classification_core db content (parse_classification_response r) service env.ptime).1
          service "active" (some (env.ptime : Int)) 0 1).2,
       (update_ai_service_status env.statusFault
          (save_classification_core db content (parse_classification_response r) service env.ptime).1
          service "active" (some (env.ptime : Int)) 0 1).1,
       ClassificationResponse.ofDict (parse_classification_response r)⟩ := by
  rw [classifyAttempt, h, hw]
  simp only [save_classification, Bool.false_eq_true, if_false]

/-- `findIdx?` skips a prefix in which the predicate fails, shifting
the index by its length. -/
theorem findIdx?_append_false (p : Char → Bool) (l₁ l₂ : List Char)
    (h : ∀ x ∈ l₁, p x = false) :
    ∀ i, List.findIdx? p (l₁ ++ l₂) i = List.findIdx? p l₂ (i + l₁.length) := by
  induction l₁ with
  | nil => intro i; simp
  | cons a l ih =>
    intro i
    rw [List.cons_append, List.findIdx?_cons, h a (by simp)]
    simp only [Bool.false_eq_true, if_false]
    have hl : (a :: l).length = l.length + 1 := List.length_cons a l
    rw [ih (fun x hx => h x (by simp [hx])) (i + 1), hl]
    congr 1
    omega

/-- Position of the last right brace of `body ++ post` when `body` ends
with one and `post` has none. -/
theorem lastIdxOf_append (body post : List Char) (hlast : body.getLast? = some rbrace)
    (hpost : rbrace ∉ post) :
    lastIdxOf rbrace (body ++ post) = some (body.length - 1) := by
  have hb : body ≠ [] := by
    intro hnil; rw [hnil] at hlast; simp at hlast
  have hb1 : 1 ≤ body.length := by
    cases body with
    | nil => exact absurd rfl hb
    | cons a t => simp [List.length_cons]
  rw [lastIdxOf, List.reverse_append]
  rw [findIdx?_append_false _ _ _ (fun x hx => by
    have : x ∈ post := List.mem_reverse.mp hx
    have : x ≠ rbrace := fun hxe => hpost (hxe ▸ this)
    simp [this]) 0]
  have hrev : body.reverse.head? = some rbrace := by rw [List.head?_reverse]; exact hlast
  cases hrb : body.reverse with
  | nil => rw [hrb] at hrev; simp at hrev
  | cons a t =>
    rw [hrb] at hrev
    simp only [List.head?_cons, Option.some.injEq] at hrev
    rw [List.findIdx?_cons, hrev]
    simp only [beq_self_eq_true, if_true]
    simp only [List.length_append, List.length_reverse, Option.map_some]
    congr 1
    omega

/-- `reSearchBraces` ignores a brace-free prefix. -/
theorem reSearchBraces_append_left (pre t : List Char) (h : lbrace ∉ pre) :
    reSearchBraces (pre ++ t) = reSearchBraces t := by
  induction pre with
  | nil => rfl
  | cons c cs ih =>
    have hc : c ≠ lbrace := fun he => h (he ▸ List.mem_cons_self c cs)
    rw [List.cons_append, reSearchBraces]
    simp only [beq_iff_eq, hc, if_false]
    exact ih (fun hm => h (List.mem_cons_of_mem c hm))

/-- The greedy brace regex returns exactly `body` on `body ++ post`
when `body` is brace-delimited and `post` has no closing brace. -/
theorem reSearchBraces_exact (body post : List Char) (hhead : body.head? = some lbrace)
    (hlast : body.getLast? = some rbrace) (hpost : rbrace ∉ post) :
    reSearchBraces (body ++ post) = some body := by
  cases hb : body with
  | nil => rw [hb] at hhead; simp at hhead
  | cons a t =>
    rw [hb] at hhead hlast
    simp only [List.head?_cons, Option.some.injEq] at hhead
    subst hhead
    rw [List.cons_append, reSearchBraces]
    simp only [beq_self_eq_true, if_true]
    have hlia : lastIdxOf rbrace ((lbrace :: t) ++ post) = some ((lbrace :: t).length - 1) :=
      lastIdxOf_append (lbrace :: t) post hlast hpost
    rw [List.cons_append] at hlia
    rw [hlia]
    show some (List.take ((lbrace :: t).length - 1 + 1) (lbrace :: (t ++ post))) =
      some (lbrace :: t)
    have hlen : (lbrace :: t).length - 1 + 1 = (lbrace :: t).length := by simp
    rw [hlen]
    rw [show (lbrace :: (t ++ post)) = ((lbrace :: t) ++ post) from rfl, List.take_left]

/-- C6 — persistence error policy: a raised store read is caught and
behaves as a cache miss (`get_classification_history` returns `None`),
while a raised store write (`save_classification`, `save_tags`,
`save_analysis`) aborts the transaction and is re-raised to the
caller. -/
theorem c6_persistence_error_policy :
    (∀ (db : DB) (h : String), get_classification_history true db h = none) ∧
    (∀ (db : DB) (c : String) (d : List (String × Json)) (s : String) (t : Nat),
      save_classification true db c d s t = .error "database write failure") ∧
    (∀ (db : DB) (i : Nat) (d : List (String × Json)) (s : String) (t : Nat),
      save_tags true db i d s t = .error "database write failure") ∧
    (∀ (db : DB) (i : Nat) (d : List (String × Json)) (s : String) (t : Nat),
      save_analysis true db i d s t = .error "database write failure") := by
  refine ⟨fun db h => rfl, fun db c d s t => rfl, fun db i d s t => rfl, fun db i d s t => rfl⟩

/-- C2 counterexample — the reply `{"a": 1} {"b": 2}` contains a
first brace-delimited JSON object, `{"a": 1}`, which parses, yet
`_parse_classification_response` returns the fixed fallback data
instead of that object's fields: the greedy regex spans from the first
`{` to the last `}`, which is not the first JSON object. -/
theorem c2_counterexample :
    parse_classification_response "\x7b\"a\": 1\x7d \x7b\"b\": 2\x7d" = fallback_classification_data ∧
    jsonLoads "\x7b\"a\": 1\x7d" = some (Json.obj [("a", Json.num 1 0)]) ∧
    fallback_classification_data ≠ [("a", Json.num 1 0)] := by
  exact ⟨by decide, by decide, by decide⟩

/-- C2 (amended) — `_parse_classification_response` never raises: it
extracts the span from the first `{` to the last `}` of the reply and
parses the whole span; a JSON object surrounded by prose still parses
provided the prose before it contains no `{` and the prose after it no
`}`; when no such span exists, or the span is not valid JSON, the fixed
fallback data is returned. -/
theorem c2_parse_robustness :
    (∀ (pre body post : String) (fields : List (String × Json)),
      lbrace ∉ pre.toList → rbrace ∉ post.toList →
      body.toList.head? = some lbrace → body.toList.getLast? = some rbrace →
      jsonLoads body = some (Json.obj fields) →
      parse_classification_response (pre ++ body ++ post) = fields) ∧
    (∀ s : String, reSearchBraces s.toList = none →
      parse_classification_response s = fallback_classification_data) ∧
    (∀ (s : String) (span : List Char), reSearchBraces s.toList = some span →
      jsonLoads (String.mk span) = none →
      parse_classification_response s = fallback_classification_data) := by
  refine ⟨?_, ?_, ?_⟩
  · intro pre body post fields hpre hpost hhead hlast hparse
    have hre : reSearchBraces (pre ++ body ++ post).toList = some body.toList := by
      have htl : (pre ++ body ++ post).toList = pre.toList ++ (body.toList ++ post.toList) := by
        simp [String.toList, String.data_append, List.append_assoc]
      rw [htl, reSearchBraces_append_left _ _ hpre]
      exact reSearchBraces_exact _ _ hhead hlast hpost
    have hparse' : jsonLoads (String.mk body.toList) = some (Json.obj fields) := hparse
    rw [parse_classification_response, parseBackendReply, hre]
    simp only [hparse']
  · intro s h
    rw [parse_classification_response, parseBackendReply, h]
  · intro s span h hp
    have hp' : jsonLoads (String.mk span) = none := hp
    rw [parse_classification_response, parseBackendReply, h]
    simp only [hp']

/-- C2 witness — a classification reply with prose around a single
JSON object parses to that object's fields. -/
theorem c2_parse_robustness_witness :
    parse_classification_response
        ("Sure! Here is the result: " ++ "\x7b\"category\": \"01-Projects\"\x7d" ++ " Hope this helps.") =
      [("category", Json.str "01-Projects")] :=
  c2_parse_robustness.1 "Sure! Here is the result: " "\x7b\"category\": \"01-Projects\"\x7d"
    " Hope this helps." [("category", Json.str "01-Projects")]
    (by decide) (by decide) (by decide) (by decide) (by decide)

/-- C3 — the rule-based classification fallback returns the first
category of `PARA_CLASSIFICATION_MODEL` (in its fixed order) one of
whose keywords occurs in the lowercased content, with confidence 0.6
and reasoning "Rule-based classification fallback"; when no keyword
occurs it returns the default `02-Areas` with the fixed low confidence
0.5.  In particular, classifying "Finish the quarterly report before
the deadline" with both remote backends failing yields `01-Projects`,
confidence 0.6, and that reasoning. -/
theorem c3_keyword_fallback :
    (∀ (content cat : String) (kws : List String),
      PARA_CLASSIFICATION_MODEL.find?
          (fun rule => rule.2.any (fun kw => strContainsSub (pyLower content) kw)) =
        some (cat, kws) →
      fallback_classification content =
        ⟨cat, qdec 6 1, "normal", "active", "medium", "1 hour",
         "Rule-based classification fallback"⟩) ∧
    (∀ content : String,
      PARA_CLASSIFICATION_MODEL.find?
          (fun rule => rule.2.any (fun kw => strContainsSub (pyLower content) kw)) = none →
      fallback_classification content =
        ⟨"02-Areas", qdec 5 1, "normal", "active", "medium", "1 hour",
         "Default classification to Areas"⟩) ∧
    ((classify_content bothFailEnv emptyDB
        "Finish the quarterly report before the deadline" none).toOption.map
      (fun x => (x.1.category, x.1.confidence, x.1.reasoning)) =
      some ("01-Projects", qdec 6 1, "Rule-based classification fallback")) := by
  refine ⟨?_, ?_, by decide⟩
  · intro content cat kws h
    rw [fallback_classification, h]
  · intro content h
    rw [fallback_classification, h]

/-- C3 witness — the scenario content matches the Projects keyword
table first. -/
theorem c3_keyword_fallback_witness :
    fallback_classification "Finish the quarterly report before the deadline" =
      ⟨"01-Projects", qdec 6 1, "normal", "active", "medium", "1 hour",
       "Rule-based classification fallback"⟩ :=
  c3_keyword_fallback.1 "Finish the quarterly report before the deadline" "01-Projects"
    ["project", "development", "build", "create", "task", "deadline", "work", "urgent",
     "launch", "release"] (by decide)

/-- `find?` over an in-place first-row status update, keyed by an
update that preserves the service name. -/
theorem find?_updateFirstStatus (l : List StatusRow) (name : String) (f : StatusRow → StatusRow)
    (hf : ∀ r, (f r).service_name = r.service_name) :
    (updateFirstStatus l name f).find? (fun x => x.service_name == name) =
      (l.find? (fun x => x.service_name == name)).map f := by
  induction l with
  | nil => rfl
  | cons r rs ih =>
    rw [updateFirstStatus]
    cases hr : r.service_name == name with
    | true =>
      simp only [if_true]
      have h1 : List.find? (fun x => x.service_name == name) (f r :: rs) = some (f r) :=
        List.find?_cons_of_pos _ (by simp [hf, hr])
      have h2 : List.find? (fun x => x.service_name == name) (r :: rs) = some r :=
        List.find?_cons_of_pos _ hr
      rw [h1, h2]
      rfl
    | false =>
      simp only [Bool.false_eq_true, if_false]
      rw [List.find?_cons_of_neg _ (by simp [hr]), List.find?_cons_of_neg _ (by simp [hr])]
      exact ih

/-- C10 — `update_ai_service_status` never raises (a raised store
access is swallowed, leaving the store unchanged, so a
health-bookkeeping failure cannot fail a dispatch), and with
non-negative deltas the stored per-service counters never decrease:
an existing row's counters grow by exactly the deltas, and a fresh row
starts at the deltas. -/
theorem c10_health_monotone :
    ∀ (db : DB) (name status : String) (rt : Option Int) (ec sc : Int),
      0 ≤ ec → 0 ≤ sc →
      (update_ai_service_status true db name status rt ec sc = (db, [])) ∧
      (∀ r, db.service_status.find? (fun x => x.service_name == name) = some r →
        ∃ r', (update_ai_service_status false db name status rt ec sc).1.service_status.find?
            (fun x => x.service_name == name) = some r' ∧
          r'.error_count = r.error_count + ec ∧ r'.success_count = r.success_count + sc ∧
          r.error_count ≤ r'.error_count ∧ r.success_count ≤ r'.success_count) ∧
      (db.service_status.find? (fun x => x.service_name == name) = none →
        (update_ai_service_status false db name status rt ec sc).1.service_status.find?
            (fun x => x.service_name == name) = some ⟨name, status, rt, ec, sc⟩) := by
  intro db name status rt ec sc hec hsc
  refine ⟨rfl, ?_, ?_⟩
  · intro r hr
    have hfind : (update_ai_service_status false db name status rt ec sc).1.service_status.find?
        (fun x => x.service_name == name) =
        some { r with status := status, response_time_ms := rt, error_count := r.error_count + ec, success_count := r.success_count + sc } := by
      rw [update_ai_service_status]
      simp only [Bool.false_eq_true, if_false, hr]
      rw [find?_updateFirstStatus db.service_status name
        (fun r => { r with status := status, response_time_ms := rt, error_count := r.error_count + ec, success_count := r.success_count + sc })
        (fun x => rfl), hr]
      rfl
    exact ⟨_, hfind, rfl, rfl, by simp; omega, by simp; omega⟩
  · intro hr
    rw [update_ai_service_status]
    simp only [Bool.false_eq_true, if_false, hr]
    rw [find?_append_none _ _ _ hr, List.find?_cons_of_pos _ (by simp)]

/-- C10 witness — a first update for a service inserts its counters. -/
theorem c10_health_monotone_witness :
    (update_ai_service_status false emptyDB "anthropic" "active" none 1 1).1.service_status.find?
        (fun x => x.service_name == "anthropic") =
      some ⟨"anthropic", "active", none, 1, 1⟩ :=
  (c10_health_monotone emptyDB "anthropic" "active" none 1 1 (by decide) (by decide)).2.2 rfl

/-- Failure of one tier of the classification try chain with a healthy
store: the backend call raises, or the parsed reply fails to validate
as a `ClassificationResponse` (the validation happens inside the same
`try` block, after the save). -/
def classifyTierFails (env : Env) (service prompt : String) : Bool :=
  match env.callService service prompt with
  | .error _ => true
  | .ok r => !(ClassificationResponse.ofDict (parse_classification_response r)).isOk

/-- A committed health update contributes no backend-invocation
event. -/
theorem no_call_in_update_events (s p : String) (f : Bool) (db : DB) (n st : String)
    (rt : Option Int) (ec sc : Int) :
    Event.callBackend s p ∉ (update_ai_service_status f db n st rt ec sc).2 := by
  rw [update_status_events]
  cases f <;> simp

/-- C1 (amended) — on a cache miss with a healthy store,
`classify_content` invokes the primary backend first; it invokes the
secondary backend, with the identical prompt, exactly when the primary
tier fails — its call raises, or its parsed reply fails response
validation; and when the secondary tier fails likewise, the returned
result is the total rule-based substitute `fallback_classification`,
so some structured response is always produced. -/
theorem c1_fallback_ordering :
    ∀ (env : Env) (db : DB) (content : String) (ctx : Option String),
      env.readFault = false → env.writeFault = false →
      db.classifications.find? (fun r => r.content_hash == generate_content_hash content) = none →
      env.primary_service ≠ env.fallback_service →
      ∃ resp db' ev, classify_content env db content ctx = .ok (resp, db', ev) ∧
        ev.head? = some (.callBackend env.primary_service (create_classification_prompt content ctx)) ∧
        (Event.callBackend env.fallback_service (create_classification_prompt content ctx) ∈ ev ↔
          classifyTierFails env env.primary_service (create_classification_prompt content ctx) = true) ∧
        (classifyTierFails env env.primary_service (create_classification_prompt content ctx) = true →
          classifyTierFails env env.fallback_service (create_classification_prompt content ctx) = true →
          resp = fallback_classification content) := by
  intro env db content ctx hr hw hmiss hne
  have hget : get_classification_history env.readFault db (generate_content_hash content) = none := by
    rw [hr, get_classification_history]
    simp [hmiss]
  simp only [classify_content, hget]
  cases hc1 : env.callService env.primary_service (create_classification_prompt content ctx) with
  | error e1 =>
    rw [classifyAttempt_error env db content _ env.primary_service e1 hc1]
    simp only
    cases hc2 : env.callService env.fallback_service (create_classification_prompt content ctx) with
    | error e2 =>
      rw [classifyAttempt_error env db content _ env.fallback_service e2 hc2]
      simp only [save_classification, hw, Bool.false_eq_true, if_false]
      refine ⟨fallback_classification content, _, _, rfl, by simp, ?_, fun _ _ => rfl⟩
      simp [classifyTierFails, hc1]
    | ok r2 =>
      rw [classifyAttempt_ok env db content _ env.fallback_service r2 hw hc2]
      simp only
      cases hv2 : ClassificationResponse.ofDict (parse_classification_response r2) with
      | ok resp2 =>
        simp only
        refine ⟨resp2, _, _, rfl, by simp, ?_, ?_⟩
        · simp [classifyTierFails, hc1]
        · intro _ hcf
          exfalso
          simp [classifyTierFails, hc2, hv2, Except.isOk, Except.toBool] at hcf
      | error e2 =>
        simp only [save_classification, hw, Bool.false_eq_true, if_false]
        refine ⟨fallback_classification content, _, _, rfl, by simp, ?_, fun _ _ => rfl⟩
        simp [classifyTierFails, hc1]
  | ok r1 =>
    rw [classifyAttempt_ok env db content _ env.primary_service r1 hw hc1]
    simp only
    cases hv1 : ClassificationResponse.ofDict (parse_classification_response r1) with
    | ok resp1 =>
      simp only
      refine ⟨resp1, _, _, rfl, by simp, ?_, ?_⟩
      · constructor
        · intro hmem
          exfalso
          rcases List.mem_cons.mp hmem with h | h
          · exact hne (by injection h with h1 h2; exact h1.symm)
          · exact no_call_in_update_events _ _ _ _ _ _ _ _ _ h
        · intro hcf
          exfalso
          simp [classifyTierFails, hc1, hv1, Except.isOk, Except.toBool] at hcf
      · intro hcf
        exfalso
        simp [classifyTierFails, hc1, hv1, Except.isOk, Except.toBool] at hcf
    | error e1 =>
      simp only
      cases hc2 : env.callService env.fallback_service (create_classification_prompt content ctx) with
      | error e2 =>
        rw [classifyAttempt_error env _ content _ env.fallback_service e2 hc2]
        simp only [save_classification, hw, Bool.false_eq_true, if_false]
        refine ⟨fallback_classification content, _, _, rfl, by simp, ?_, fun _ _ => rfl⟩
        simp [classifyTierFails, hc1, hv1, Except.isOk, Except.toBool]
      | ok r2 =>
        rw [classifyAttempt_ok env _ content _ env.fallback_service r2 hw hc2]
        simp only
        cases hv2 : ClassificationResponse.ofDict (parse_classification_response r2) with
        | ok resp2 =>
          simp only
          refine ⟨resp2, _, _, rfl, by simp, ?_, ?_⟩
          · simp [classifyTierFails, hc1, hv1, Except.isOk, Except.toBool]
          · intro _ hcf
            exfalso
            simp [classifyTierFails, hc2, hv2, Except.isOk, Except.toBool] at hcf
        | error e2 =>
          simp only [save_classification, hw, Bool.false_eq_true, if_false]
          refine ⟨fallback_classification content, _, _, rfl, by simp, ?_, fun _ _ => rfl⟩
          simp [classifyTierFails, hc1, hv1, Except.isOk, Except.toBool]

/-- C1 witness — with both backends unreachable and the store healthy,
a cache-miss classification dispatches the primary first and returns
the rule-based fallback result. -/
theorem c1_fallback_ordering_witness :
    (classify_content bothFailEnv emptyDB "c1 witness" none).toOption.map
        (fun x => (x.1, x.2.2.head?)) =
      some (fallback_classification "c1 witness",
        some (Event.callBackend "anthropic" (create_classification_prompt "c1 witness" none))) := by
  obtain ⟨resp, db', ev, heq, hhead, hiff, himp⟩ :=
    c1_fallback_ordering bothFailEnv emptyDB "c1 witness" none rfl rfl rfl (by decide)
  rw [heq]
  have h1 : resp = fallback_classification "c1 witness" := himp rfl rfl
  rw [h1]
  simp [Except.toOption, hhead, bothFailEnv]

/-- An environment in which the primary backend replies with a JSON
object lacking the response fields (so its call does not raise, but
validation does) while the secondary replies with a complete
classification object. -/
def c1env : Env :=
  ⟨"anthropic", "openai",
   fun service _ =>
     if service = "anthropic" then .ok "\x7b\"note\": 1\x7d"
     else .ok "\x7b\"category\": \"03-Resources\", \"confidence\": 0.9, \"priority\": \"normal\", \"status\": \"active\", \"complexity\": \"low\", \"estimated_time\": \"2 hours\", \"reasoning\": \"secondary\"\x7d",
   false, false, false, 5⟩

/-- C1 counterexample — the primary invocation does not raise (it
returns a parseable reply), yet the secondary backend is still invoked
and produces the returned result, because the parsed reply fails
response validation after being stored: "if and only if that
invocation raises" is false on the code. -/
theorem c1_counterexample :
    (c1env.callService "anthropic" (create_classification_prompt "team note" none)).isOk = true ∧
    (classify_content c1env emptyDB "team note" none).toOption.map
        (fun x => (x.2.2.contains
            (Event.callBackend "openai" (create_classification_prompt "team note" none)),
          x.1.category)) =
      some (true, "03-Resources") := by
  exact ⟨by decide, by decide⟩

/-- An `Except` that reports ok holds a value. -/
theorem isOk_exists {ε α : Type} (x : Except ε α) (h : x.isOk = true) : ∃ a, x = .ok a := by
  cases x with
  | ok a => exact ⟨a, rfl⟩
  | error e => simp [Except.isOk, Except.toBool] at h

/-- A failed backend call in a tagging tier. -/
theorem taggingAttempt_error (env : Env) (db : DB) (existing : Option HistoryEntry)
    (prompt service e : String) (h : env.callService service prompt = .error e) :
    taggingAttempt env db existing prompt service = ⟨[.callBackend service prompt], db, .error e⟩ := by
  rw [taggingAttempt, h]

/-- A successful backend call in a tagging tier with no stored
classification: nothing to save, record health, validate. -/
theorem taggingAttempt_ok_none (env : Env) (db : DB) (prompt service r : String)
    (h : env.callService service prompt = .ok r) :
    taggingAttempt env db none prompt service =
      ⟨.callBackend service prompt ::
        (update_ai_service_status env.statusFault db service "active" (some (env.ptime : Int)) 0 1).2,
       (update_ai_service_status env.statusFault db service "active" (some (env.ptime : Int)) 0 1).1,
       TaggingResponse.ofDict (parse_tagging_response r)⟩ := by
  rw [taggingAttempt, h]

/-- A failed backend call in an analysis tier. -/
theorem analysisAttempt_error (env : Env) (db : DB) (existing : Option HistoryEntry)
    (prompt service e : String) (h : env.callService service prompt = .error e) :
    analysisAttempt env db existing prompt service = ⟨[.callBackend service prompt], db, .error e⟩ := by
  rw [analysisAttempt, h]

/-- A successful backend call in an analysis tier with no stored
classification. -/
theorem analysisAttempt_ok_none (env : Env) (db : DB) (prompt service r : String)
    (h : env.callService service prompt = .ok r) :
    analysisAttempt env db none prompt service =
      ⟨.callBackend service prompt ::
        (update_ai_service_status env.statusFault db service "active" (some (env.ptime : Int)) 0 1).2,
       (update_ai_service_status env.statusFault db service "active" (some (env.ptime : Int)) 0 1).1,
       AnalysisResponse.ofDict (parse_analysis_response r)⟩ := by
  rw [analysisAttempt, h]

/-- Every successful backend reply to this prompt validates as a
classification response. -/
def cleanClassReplies (env : Env) (prompt : String) : Prop :=
  ∀ s r, env.callService s prompt = .ok r →
    (ClassificationResponse.ofDict (parse_classification_response r)).isOk = true

/-- Every successful backend reply to this prompt validates as a
tagging response. -/
def cleanTagReplies (env : Env) (prompt : String) : Prop :=
  ∀ s r, env.callService s prompt = .ok r →
    (TaggingResponse.ofDict (parse_tagging_response r)).isOk = true

/-- Every successful backend reply to this prompt validates as an
analysis response. -/
def cleanAnalysisReplies (env : Env) (prompt : String) : Prop :=
  ∀ s r, env.callService s prompt = .ok r →
    (AnalysisResponse.ofDict (parse_analysis_response r)).isOk = true

/-- C5 (amended) — with a healthy store, no stored classification for
the content, and every successful reply validating: a completed
classification dispatch records exactly one health-status update
naming the tier that produced the result (primary, secondary, or the
synthetic "fallback" pseudo-backend); a completed tagging or analysis
dispatch records exactly one update naming the backend when the
primary or secondary tier produced the result, but records NO health
update when the local fallback produced it. -/
theorem c5_health_update_per_tier :
    ∀ (env : Env) (db : DB) (content : String) (ctx title category analysis : Option String),
      env.readFault = false → env.writeFault = false → env.statusFault = false →
      db.classifications.find? (fun r => r.content_hash == generate_content_hash content) = none →
      cleanClassReplies env (create_classification_prompt content ctx) →
      cleanTagReplies env (create_tagging_prompt content title category analysis) →
      cleanAnalysisReplies env (create_analysis_prompt content title ctx) →
      ((∀ r, env.callService env.primary_service (create_classification_prompt content ctx) = .ok r →
          ∃ x, classify_content env db content ctx = .ok x ∧
            healthEvents x.2.2 = [.healthUpdate env.primary_service "active"]) ∧
        (∀ e r, env.callService env.primary_service (create_classification_prompt content ctx) = .error e →
          env.callService env.fallback_service (create_classification_prompt content ctx) = .ok r →
          ∃ x, classify_content env db content ctx = .ok x ∧
            healthEvents x.2.2 = [.healthUpdate env.fallback_service "active"]) ∧
        (∀ e e', env.callService env.primary_service (create_classification_prompt content ctx) = .error e →
          env.callService env.fallback_service (create_classification_prompt content ctx) = .error e' →
          ∃ x, classify_content env db content ctx = .ok x ∧
            healthEvents x.2.2 = [.healthUpdate "fallback" "active"])) ∧
      ((∀ r, env.callService env.primary_service (create_tagging_prompt content title category analysis) = .ok r →
          ∃ x, generate_smart_tags env db content title category analysis = .ok x ∧
            healthEvents x.2.2 = [.healthUpdate env.primary_service "active"]) ∧
        (∀ e r, env.callService env.primary_service (create_tagging_prompt content title category analysis) = .error e →
          env.callService env.fallback_service (create_tagging_prompt content title category analysis) = .ok r →
          ∃ x, generate_smart_tags env db content title category analysis = .ok x ∧
            healthEvents x.2.2 = [.healthUpdate env.fallback_service "active"]) ∧
        (∀ e e', env.callService env.primary_service (create_tagging_prompt content title category analysis) = .error e →
          env.callService env.fallback_service (create_tagging_prompt content title category analysis) = .error e' →
          ∃ x, generate_smart_tags env db content title category analysis = .ok x ∧
            healthEvents x.2.2 = [])) ∧
      ((∀ r, env.callService env.primary_service (create_analysis_prompt content title ctx) = .ok r →
          ∃ x, analyze_content env db content title ctx = .ok x ∧
            healthEvents x.2.2 = [.healthUpdate env.primary_service "active"]) ∧
        (∀ e r, env.callService env.primary_service (create_analysis_prompt content title ctx) = .error e →
          env.callService env.fallback_service (create_analysis_prompt content title ctx) = .ok r →
          ∃ x, analyze_content env db content title ctx = .ok x ∧
            healthEvents x.2.2 = [.healthUpdate env.fallback_service "active"]) ∧
        (∀ e e', env.callService env.primary_service (create_analysis_prompt content title ctx) = .error e →
          env.callService env.fallback_service (create_analysis_prompt content title ctx) = .error e' →
          ∃ x, analyze_content env db content title ctx = .ok x ∧
            healthEvents x.2.2 = [])) := by
  intro env db content ctx title category analysis hr hw hs hmiss hcc hct hca
  have hget : get_classification_history env.readFault db (generate_content_hash content) = none := by
    rw [hr, get_classification_history]
    simp [hmiss]
  have hue : ∀ (db₀ : DB) (n : String),
      (update_ai_service_status env.statusFault db₀ n "active" (some (env.ptime : Int)) 0 1).2 =
        [.healthUpdate n "active"] := by
    intro db₀ n
    rw [update_status_events, hs]
    rfl
  refine ⟨⟨?_, ?_, ?_⟩, ⟨?_, ?_, ?_⟩, ⟨?_, ?_, ?_⟩⟩
  · intro r hc1
    obtain ⟨resp, hv⟩ := isOk_exists _ (hcc _ r hc1)
    simp only [classify_content, hget]
    rw [classifyAttempt_ok env db content _ env.primary_service r hw hc1]
    simp only [hv]
    exact ⟨_, rfl, by rw [healthEvents_call, hue]; exact rfl⟩
  · intro e r hc1 hc2
    obtain ⟨resp, hv⟩ := isOk_exists _ (hcc _ r hc2)
    simp only [classify_content, hget]
    rw [classifyAttempt_error env db content _ env.primary_service e hc1]
    simp only
    rw [classifyAttempt_ok env db content _ env.fallback_service r hw hc2]
    simp only [hv]
    refine ⟨_, rfl, ?_⟩
    rw [healthEvents_append, healthEvents_call, healthEvents_call, hue]
    rfl
  · intro e e' hc1 hc2
    simp only [classify_content, hget]
    rw [classifyAttempt_error env db content _ env.primary_service e hc1]
    simp only
    rw [classifyAttempt_error env db content _ env.fallback_service e' hc2]
    simp only [save_classification, hw, Bool.false_eq_true, if_false]
    refine ⟨_, rfl, ?_⟩
    rw [healthEvents_append, healthEvents_append, healthEvents_call, healthEvents_call, hue]
    rfl
  · intro r hc1
    obtain ⟨resp, hv⟩ := isOk_exists _ (hct _ r hc1)
    simp only [generate_smart_tags, hget, tagDispatch]
    rw [taggingAttempt_ok_none env db _ env.primary_service r hc1]
    simp only [hv]
    exact ⟨_, rfl, by rw [healthEvents_call, hue]; exact rfl⟩
  · intro e r hc1 hc2
    obtain ⟨resp, hv⟩ := isOk_exists _ (hct _ r hc2)
    simp only [generate_smart_tags, hget, tagDispatch]
    rw [taggingAttempt_error env db none _ env.primary_service e hc1]
    simp only
    rw [taggingAttempt_ok_none env db _ env.fallback_service r hc2]
    simp only [hv]
    refine ⟨_, rfl, ?_⟩
    rw [healthEvents_append, healthEvents_call, healthEvents_call, hue]
    rfl
  · intro e e' hc1 hc2
    simp only [generate_smart_tags, hget, tagDispatch]
    rw [taggingAttempt_error env db none _ env.primary_service e hc1]
    simp only
    rw [taggingAttempt_error env db none _ env.fallback_service e' hc2]
    simp only
    refine ⟨_, rfl, ?_⟩
    rw [healthEvents_append, healthEvents_call, healthEvents_call]
    rfl
  · intro r hc1
    obtain ⟨resp, hv⟩ := isOk_exists _ (hca _ r hc1)
    simp only [analyze_content, hget, analysisDispatch]
    rw [analysisAttempt_ok_none env db _ env.primary_service r hc1]
    simp only [hv]
    exact ⟨_, rfl, by rw [healthEvents_call, hue]; exact rfl⟩
  · intro e r hc1 hc2
    obtain ⟨resp, hv⟩ := isOk_exists _ (hca _ r hc2)
    simp only [analyze_content, hget, analysisDispatch]
    rw [analysisAttempt_error env db none _ env.primary_service e hc1]
    simp only
    rw [analysisAttempt_ok_none env db _ env.fallback_service r hc2]
    simp only [hv]
    refine ⟨_, rfl, ?_⟩
    rw [healthEvents_append, healthEvents_call, healthEvents_call, hue]
    rfl
  · intro e e' hc1 hc2
    simp only [analyze_content, hget, analysisDispatch]
    rw [analysisAttempt_error env db none _ env.primary_service e hc1]
    simp only
    rw [analysisAttempt_error env db none _ env.fallback_service e' hc2]
    simp only
    refine ⟨_, rfl, ?_⟩
    rw [healthEvents_append, healthEvents_call, healthEvents_call]
    rfl

/-- C5 witness — a classification dispatch that falls through to the
rule-based tier records exactly one health update, for the synthetic
"fallback" pseudo-backend. -/
theorem c5_health_update_per_tier_witness :
    (classify_content bothFailEnv emptyDB "c5 witness" none).toOption.map
        (fun x => healthEvents x.2.2) = some [Event.healthUpdate "fallback" "active"] := by
  obtain ⟨x, hx, hh⟩ :=
    (c5_health_update_per_tier bothFailEnv emptyDB "c5 witness" none none none none
      rfl rfl rfl rfl (fun s r h => nomatch h) (fun s r h => nomatch h)
      (fun s r h => nomatch h)).1.2.2 "backend unreachable" "backend unreachable" rfl rfl
  rw [hx]
  simp [Except.toOption, hh]

/-- C5 counterexample — a tagging dispatch completed by the local
fallback tier (after two backend invocations) records NO health-status
update at all, contradicting "exactly one ... regardless of which tier
succeeded". -/
theorem c5_counterexample :
    (generate_smart_tags bothFailEnv emptyDB "tag me please" none none none).toOption.map
        (fun x => (healthEvents x.2.2, x.2.2.length)) = some ([], 2) := by
  decide

/-- In-place update of the first matching classification row preserves
the row count. -/
theorem updateFirstClass_length (l : List ClassRow) (h : String) (f : ClassRow → ClassRow) :
    (updateFirstClass l h f).length = l.length := by
  induction l with
  | nil => rfl
  | cons r rs ih =>
    rw [updateFirstClass]
    cases hr : r.content_hash == h with
    | true => simp
    | false => simp [ih]

/-- `find?` over an in-place first-row classification update, keyed by
an update that preserves the content hash. -/
theorem find?_updateFirstClass (l : List ClassRow) (h : String) (f : ClassRow → ClassRow)
    (hf : ∀ r, (f r).content_hash = r.content_hash) :
    (updateFirstClass l h f).find? (fun x => x.content_hash == h) =
      (l.find? (fun x => x.content_hash == h)).map f := by
  induction l with
  | nil => rfl
  | cons r rs ih =>
    rw [updateFirstClass]
    cases hr : r.content_hash == h with
    | true =>
      simp only [if_true]
      have h1 : List.find? (fun x => x.content_hash == h) (f r :: rs) = some (f r) :=
        List.find?_cons_of_pos _ (by simp [hf, hr])
      have h2 : List.find? (fun x => x.content_hash == h) (r :: rs) = some r :=
        List.find?_cons_of_pos _ hr
      rw [h1, h2]
      rfl
    | false =>
      simp only [Bool.false_eq_true, if_false]
      rw [List.find?_cons_of_neg _ (by simp [hr]), List.find?_cons_of_neg _ (by simp [hr])]
      exact ih

/-- A hash-preserving in-place update preserves the per-hash row
count. -/
theorem filter_updateFirstClass_length (l : List ClassRow) (h : String) (f : ClassRow → ClassRow)
    (p : ClassRow → Bool) (hf : ∀ r, p (f r) = p r) :
    ((updateFirstClass l h f).filter p).length = (l.filter p).length := by
  induction l with
  | nil => rfl
  | cons r rs ih =>
    rw [updateFirstClass]
    cases hr : r.content_hash == h with
    | true =>
      simp only [if_true, List.filter_cons, hf r]
      cases p r <;> simp
    | false =>
      simp only [Bool.false_eq_true, if_false, List.filter_cons]
      cases p r <;> simp [ih]

/-- C7 — the content hash is the SHA-256 hex digest of the UTF-8 bytes
of the raw input (a pure function, so equal inputs always hash alike),
and `save_classification` keeps at most one live row per hash: from a
store with at most one row for the content's hash, a save leaves
exactly one row for it — updating the existing row in place (same id,
same row count) when one exists, appending one row otherwise — and any
later save of the same content returns the same id without inserting a
second row. -/
theorem c7_hash_pure_upsert_unique :
    ∀ content : String,
      generate_content_hash content = sha256Hex (utf8Encode content) ∧
      ∀ (db : DB) (d : List (String × Json)) (svc : String) (t : Nat),
        (db.classifications.filter (fun r => r.content_hash == generate_content_hash content)).length ≤ 1 →
        ∀ (db₁ : DB) (id₁ : Nat), save_classification false db content d svc t = .ok (db₁, id₁) →
          (db₁.classifications.filter (fun r => r.content_hash == generate_content_hash content)).length = 1 ∧
          (∀ r, db.classifications.find? (fun x => x.content_hash == generate_content_hash content) = some r →
            id₁ = r.id ∧ db₁.classifications.length = db.classifications.length) ∧
          (db.classifications.find? (fun x => x.content_hash == generate_content_hash content) = none →
            db₁.classifications.length = db.classifications.length + 1) ∧
          ∀ (d₂ : List (String × Json)) (svc₂ : String) (t₂ : Nat) (db₂ : DB) (id₂ : Nat),
            save_classification false db₁ content d₂ svc₂ t₂ = .ok (db₂, id₂) →
            id₂ = id₁ ∧ db₂.classifications.length = db₁.classifications.length := by
  intro content
  refine ⟨rfl, ?_⟩
  intro db d svc t hcount db₁ id₁ hsave
  have hcore : save_classification_core db content d svc t = (db₁, id₁) := by
    simpa [save_classification] using hsave
  cases hfind : db.classifications.find?
      (fun x => x.content_hash == generate_content_hash content) with
  | some r =>
    rw [save_classification_core, hfind] at hcore
    have hclass₁ : db₁.classifications =
        updateFirstClass db.classifications (generate_content_hash content) (classUpd d svc) :=
      congrArg (fun z => z.1.classifications) hcore.symm
    have hid : id₁ = r.id := congrArg Prod.snd hcore.symm
    have hmem := List.find?_some hfind
    have hmem2 := List.mem_of_find?_eq_some hfind
    have hpos : 0 < (db.classifications.filter
        (fun x => x.content_hash == generate_content_hash content)).length :=
      List.length_pos.mpr (List.ne_nil_of_mem (List.mem_filter.mpr ⟨hmem2, hmem⟩))
    refine ⟨?_, fun r' hr' => ?_, fun hnone => ?_, ?_⟩
    · rw [hclass₁, filter_updateFirstClass_length db.classifications
        (generate_content_hash content) (classUpd d svc)
        (fun x => x.content_hash == generate_content_hash content) (fun x => rfl)]
      omega
    · have hrr : r' = r := (Option.some.inj hr').symm
      refine ⟨by rw [hid, hrr], ?_⟩
      rw [hclass₁, updateFirstClass_length]
    · exact Option.noConfusion hnone
    · intro d₂ svc₂ t₂ db₂ id₂ hsave₂
      have hcore₂ : save_classification_core db₁ content d₂ svc₂ t₂ = (db₂, id₂) := by
        simpa [save_classification] using hsave₂
      have hfind₁ : db₁.classifications.find?
          (fun x => x.content_hash == generate_content_hash content) =
          some (classUpd d svc r) := by
        rw [hclass₁, find?_updateFirstClass db.classifications
          (generate_content_hash content) (classUpd d svc) (fun x => rfl), hfind]
        rfl
      rw [save_classification_core, hfind₁] at hcore₂
      have hid₂ : id₂ = r.id := congrArg Prod.snd hcore₂.symm
      have hclass₂ : db₂.classifications =
          updateFirstClass db₁.classifications (generate_content_hash content)
            (classUpd d₂ svc₂) :=
        congrArg (fun z => z.1.classifications) hcore₂.symm
      refine ⟨by rw [hid₂, hid], ?_⟩
      rw [hclass₂, updateFirstClass_length]
  | none =>
    rw [save_classification_core, hfind] at hcore
    have hclass₁ : db₁.classifications =
        db.classifications ++ [classNewRow db content d svc] :=
      congrArg (fun z => z.1.classifications) hcore.symm
    have hid : id₁ = db.next_class_id := congrArg Prod.snd hcore.symm
    have hfilnil : db.classifications.filter
        (fun x => x.content_hash == generate_content_hash content) = [] := by
      rw [List.filter_eq_nil_iff]
      intro a ha
      have := List.find?_eq_none.mp hfind a ha
      simpa using this
    refine ⟨?_, fun r' hr' => ?_, fun _ => ?_, ?_⟩
    · rw [hclass₁, List.filter_append, hfilnil]
      simp [classNewRow]
    · exact Option.noConfusion hr' 
    · rw [hclass₁]
      simp
    · intro d₂ svc₂ t₂ db₂ id₂ hsave₂
      have hcore₂ : save_classification_core db₁ content d₂ svc₂ t₂ = (db₂, id₂) := by
        simpa [save_classification] using hsave₂
      have hfind₁ : db₁.classifications.find?
          (fun x => x.content_hash == generate_content_hash content) =
          some (classNewRow db content d svc) := by
        rw [hclass₁, find?_append_none _ _ _ hfind,
          List.find?_cons_of_pos _ (by simp [classNewRow])]
      rw [save_classification_core, hfind₁] at hcore₂
      have hid₂ : id₂ = (classNewRow db content d svc).id := congrArg Prod.snd hcore₂.symm
      have hclass₂ : db₂.classifications =
          updateFirstClass db₁.classifications (generate_content_hash content)
            (classUpd d₂ svc₂) :=
        congrArg (fun z => z.1.classifications) hcore₂.symm
      refine ⟨by rw [hid₂, hid]; rfl, ?_⟩
      rw [hclass₂, updateFirstClass_length]

/-- C7 witness — a first save into an empty store leaves exactly one
row for the content's hash. -/
theorem c7_hash_pure_upsert_unique_witness :
    ((save_classification_core emptyDB "ab" [] "anthropic" 0).1.classifications.filter
      (fun r => r.content_hash == generate_content_hash "ab")).length = 1 :=
  ((c7_hash_pure_upsert_unique "ab").2 emptyDB [] "anthropic" 0 (by decide)
    (save_classification_core emptyDB "ab" [] "anthropic" 0).1
    (save_classification_core emptyDB "ab" [] "anthropic" 0).2 rfl).1

/-- C8 — tag regeneration replaces, never merges: when `save_tags`
completes, the tag rows of the classification are exactly one row per
element of the payload's `smart_tags` (in order); no tag row of that
classification stored before the call survives it, while rows of other
classifications are untouched. -/
theorem c8_tags_replace :
    ∀ (db : DB) (cid : Nat) (tags_data : List (String × Json)) (svc : String) (t : Nat) (db' : DB),
      (∀ r ∈ db.tags, r.id < db.next_tag_id) →
      save_tags false db cid tags_data svc t = .ok db' →
      ∃ elems, pyIter (jgetD tags_data "smart_tags" (Json.arr [])) = .ok elems ∧
        (db'.tags.filter (fun r => r.classification_id == cid)).map (fun r => r.tag) = elems ∧
        (∀ r ∈ db.tags, r.classification_id = cid → r ∉ db'.tags) ∧
        (∀ r ∈ db.tags, r.classification_id ≠ cid → r ∈ db'.tags) := by
  intro db cid tags_data svc t db' hwf hsave
  have hcore : save_tags_core db cid tags_data svc t = .ok db' := by
    simpa [save_tags] using hsave
  rw [save_tags_core] at hcore
  cases hiter : pyIter (jgetD tags_data "smart_tags" (Json.arr [])) with
  | error e =>
    rw [hiter] at hcore
    exact Except.noConfusion hcore
  | ok elems =>
    rw [hiter] at hcore
    refine ⟨elems, rfl, ?_⟩
    have hremf : ∀ r ∈ db.tags.filter (fun r => !(r.classification_id == cid)),
        (r.classification_id == cid) = false := by
      intro r hr
      have := (List.mem_filter.mp hr).2
      simpa using this
    have hremnil : (db.tags.filter (fun r => !(r.classification_id == cid))).filter
        (fun r => r.classification_id == cid) = [] := by
      rw [List.filter_eq_nil_iff]
      intro a ha
      simp [hremf a ha]
    have hremmem : ∀ r ∈ db.tags, r.classification_id ≠ cid →
        r ∈ db.tags.filter (fun r => !(r.classification_id == cid)) := by
      intro r hr hne
      exact List.mem_filter.mpr ⟨hr, by simpa using hne⟩
    have hremnotmem : ∀ r ∈ db.tags, r.classification_id = cid →
        r ∉ db.tags.filter (fun r => !(r.classification_id == cid)) := by
      intro r _ he hmem
      have := (List.mem_filter.mp hmem).2
      simp [he] at this
    cases elems with
    | nil =>
      have hdb : Except.ok ({ db with
          tags := db.tags.filter (fun r => !(r.classification_id == cid)),
          logs := db.logs ++ [⟨"", "tagging", "success", t, some svc⟩] } : DB) =
          (Except.ok db' : Except String DB) := hcore
      have hdb' : db' = { db with
          tags := db.tags.filter (fun r => !(r.classification_id == cid)),
          logs := db.logs ++ [⟨"", "tagging", "success", t, some svc⟩] } :=
        (Except.ok.inj hdb).symm
      have htags : db'.tags = db.tags.filter (fun r => !(r.classification_id == cid)) := by
        rw [hdb']
      refine ⟨by rw [htags, hremnil]; rfl, ?_, ?_⟩
      · intro r hr he
        rw [htags]
        exact hremnotmem r hr he
      · intro r hr hne
        rw [htags]
        exact hremmem r hr hne
    | cons e es =>
      cases hgrp : tagSemanticGroup tags_data with
      | error ge =>
        rw [hgrp] at hcore
        exact Except.noConfusion hcore
      | ok grp =>
        rw [hgrp] at hcore
        have hdb : Except.ok ({ db with
            tags := db.tags.filter (fun r => !(r.classification_id == cid)) ++
              (e :: es).enum.map (fun p =>
                TagRow.mk (db.next_tag_id + p.1) cid p.2
                  (jgetD tags_data "confidence" (Json.num 5 1)) grp),
            next_tag_id := db.next_tag_id + (e :: es).length,
            logs := db.logs ++ [⟨"", "tagging", "success", t, some svc⟩] } : DB) =
            (Except.ok db' : Except String DB) := hcore
        have hdb' : db' = { db with
            tags := db.tags.filter (fun r => !(r.classification_id == cid)) ++
              (e :: es).enum.map (fun p =>
                TagRow.mk (db.next_tag_id + p.1) cid p.2
                  (jgetD tags_data "confidence" (Json.num 5 1)) grp),
            next_tag_id := db.next_tag_id + (e :: es).length,
            logs := db.logs ++ [⟨"", "tagging", "success", t, some svc⟩] } :=
          (Except.ok.inj hdb).symm
        have htags : db'.tags = db.tags.filter (fun r => !(r.classification_id == cid)) ++
            (e :: es).enum.map (fun p =>
              TagRow.mk (db.next_tag_id + p.1) cid p.2
                (jgetD tags_data "confidence" (Json.num 5 1)) grp) := by
          rw [hdb']
        have hnewall : ∀ r ∈ (e :: es).enum.map (fun p =>
            TagRow.mk (db.next_tag_id + p.1) cid p.2
              (jgetD tags_data "confidence" (Json.num 5 1)) grp),
            (r.classification_id == cid) = true ∧ db.next_tag_id ≤ r.id := by
          intro r hr
          obtain ⟨p, hp, hpr⟩ := List.mem_map.mp hr
          rw [← hpr]
          exact ⟨by simp, by simp⟩
        refine ⟨?_, ?_, ?_⟩
        · rw [htags, List.filter_append, hremnil, List.nil_append]
          rw [List.filter_eq_self.mpr (fun a ha => (hnewall a ha).1), List.map_map]
          have : ((fun r => r.tag) ∘ fun p =>
              TagRow.mk (db.next_tag_id + p.1) cid p.2
                (jgetD tags_data "confidence" (Json.num 5 1)) grp) =
              (fun p : Nat × Json => p.2) := rfl
          rw [this, List.enum_map_snd]
        · intro r hr he
          rw [htags]
          intro hmem
          rcases List.mem_append.mp hmem with hm | hm
          · exact hremnotmem r hr he hm
          · have := (hnewall r hm).2
            have := hwf r hr
            omega
        · intro r hr hne
          rw [htags]
          exact List.mem_append.mpr (Or.inl (hremmem r hr hne))

/-- The one-tag store used by the C8 witness. -/
def c8db : DB :=
  { emptyDB with tags := [⟨0, 7, .str "old", .num 5 1, .str "g"⟩], next_tag_id := 1 }

/-- The tagging payload used by the C8 witness. -/
def c8data : List (String × Json) :=
  [("smart_tags", Json.arr [Json.str "alpha"]), ("confidence", Json.num 8 1),
   ("semantic_groups", Json.obj [("general", Json.arr [Json.str "alpha"])]),
   ("related_topics", Json.arr [])]

/-- The store after the C8 witness save. -/
def c8dbAfter : DB :=
  { emptyDB with
    tags := [⟨1, 7, Json.str "alpha", Json.num 8 1, Json.arr [Json.str "alpha"]⟩],
    next_tag_id := 2,
    logs := [⟨"", "tagging", "success", 4, some "anthropic"⟩] }

/-- C8 witness — the previously stored tag row of the classification
does not survive a regeneration. -/
theorem c8_tags_replace_witness :
    TagRow.mk 0 7 (Json.str "old") (Json.num 5 1) (Json.str "g") ∉ c8dbAfter.tags := by
  obtain ⟨elems, hiter, hmap, hold, hkeep⟩ :=
    c8_tags_replace c8db 7 c8data "anthropic" 4 c8dbAfter (by decide) (by decide)
  exact hold _ (by decide) rfl

/-- Characterize a successful monadic bind in `Except`. -/
theorem except_bind_ok {ε α β : Type} (x : Except ε α) (f : α → Except ε β) (b : β) :
    (x >>= f) = .ok b ↔ ∃ a, x = .ok a ∧ f a = .ok b := by
  cases x with
  | ok a =>
    constructor
    · intro h
      exact ⟨a, rfl, h⟩
    · intro ⟨a', ha', hf⟩
      cases Except.ok.inj ha'
      exact hf
  | error e =>
    constructor
    · intro h
      exact Except.noConfusion h
    · intro ⟨a', ha', _⟩
      exact Except.noConfusion ha'

/-- A bind on a successful `Except` computes the continuation. -/
theorem except_ok_bind {ε α β : Type} (a : α) (f : α → Except ε β) :
    ((Except.ok a : Except ε α) >>= f) = f a := rfl

/-- A required field is found exactly when the key is bound. -/
theorem jfield_ok (d : List (String × Json)) (k : String) (v : Json) :
    jfield d k = .ok v ↔ jlookup d k = some v := by
  rw [jfield]
  cases h : jlookup d k <;> simp

/-- When the key is bound, `dict.get` ignores its default. -/
theorem jgetD_of_lookup (d : List (String × Json)) (k : String) (v X : Json)
    (h : jlookup d k = some v) : jgetD d k X = v := by
  rw [jgetD, h]
  rfl

/-- A dict that validates as a `ClassificationResponse` makes any
stored row built from its values (with arbitrary defaults for the
absent-key case, which cannot occur) render back, through the cache-hit
validation, to the very same response. -/
theorem respOfHistory_of_ofDict (d : List (String × Json)) (resp : ClassificationResponse)
    (h : ClassificationResponse.ofDict d = .ok resp)
    (i : Nat) (svc : String) (tags : List TagEntry) (analysis : Option AnalysisEntry)
    (X1 X2 X3 X4 X5 X6 X7 : Json) :
    respOfHistory ⟨i, jgetD d "category" X1, jgetD d "confidence" X2, jgetD d "priority" X3,
      jgetD d "status" X4, jgetD d "complexity" X5, jgetD d "estimated_time" X6,
      jgetD d "reasoning" X7, svc, tags, analysis⟩ = .ok resp := by
  rw [ClassificationResponse.ofDict] at h
  rw [except_bind_ok] at h
  obtain ⟨v1, hf1, h⟩ := h
  rw [except_bind_ok] at h
  obtain ⟨c1, hc1, h⟩ := h
  rw [except_bind_ok] at h
  obtain ⟨v2, hf2, h⟩ := h
  rw [except_bind_ok] at h
  obtain ⟨c2, hc2, h⟩ := h
  rw [except_bind_ok] at h
  obtain ⟨v3, hf3, h⟩ := h
  rw [except_bind_ok] at h
  obtain ⟨c3, hc3, h⟩ := h
  rw [except_bind_ok] at h
  obtain ⟨v4, hf4, h⟩ := h
  rw [except_bind_ok] at h
  obtain ⟨c4, hc4, h⟩ := h
  rw [except_bind_ok] at h
  obtain ⟨v5, hf5, h⟩ := h
  rw [except_bind_ok] at h
  obtain ⟨c5, hc5, h⟩ := h
  rw [except_bind_ok] at h
  obtain ⟨v6, hf6, h⟩ := h
  rw [except_bind_ok] at h
  obtain ⟨c6, hc6, h⟩ := h
  rw [except_bind_ok] at h
  obtain ⟨v7, hf7, h⟩ := h
  rw [except_bind_ok] at h
  obtain ⟨c7, hc7, h⟩ := h
  have hresp : resp = ⟨c1, c2, c3, c4, c5, c6, c7⟩ := (Except.ok.inj h).symm
  simp only [respOfHistory,
    jgetD_of_lookup d "category" v1 X1 ((jfield_ok d "category" v1).mp hf1),
    jgetD_of_lookup d "confidence" v2 X2 ((jfield_ok d "confidence" v2).mp hf2),
    jgetD_of_lookup d "priority" v3 X3 ((jfield_ok d "priority" v3).mp hf3),
    jgetD_of_lookup d "status" v4 X4 ((jfield_ok d "status" v4).mp hf4),
    jgetD_of_lookup d "complexity" v5 X5 ((jfield_ok d "complexity" v5).mp hf5),
    jgetD_of_lookup d "estimated_time" v6 X6 ((jfield_ok d "estimated_time" v6).mp hf6),
    jgetD_of_lookup d "reasoning" v7 X7 ((jfield_ok d "reasoning" v7).mp hf7),
    hc1, hc2, hc3, hc4, hc5, hc6, hc7, except_ok_bind]
  rw [hresp]

/-- The rule-based fallback's `.dict()` validates back to the fallback
response itself. -/
theorem ofDict_toDict_fallback (content : String) :
    ClassificationResponse.ofDict (fallback_classification content).toDict =
      .ok (fallback_classification content) := by
  rw [fallback_classification]
  cases hf : PARA_CLASSIFICATION_MODEL.find?
      (fun rule => rule.2.any (fun kw => strContainsSub (pyLower content) kw)) with
  | none => decide
  | some rule =>
    have hmem := List.mem_of_find?_eq_some hf
    simp only [PARA_CLASSIFICATION_MODEL, List.mem_cons, List.not_mem_nil, or_false] at hmem
    rcases hmem with rfl | rfl | rfl | rfl <;> decide

/-- Serving a stored row that passes response validation is a pure
read: no events, store returned unchanged. -/
theorem classify_cache_hit (env : Env) (db : DB) (content : String) (ctx : Option String)
    (entry : HistoryEntry) (resp : ClassificationResponse) (hr : env.readFault = false)
    (hget : get_classification_history false db (generate_content_hash content) = some entry)
    (hresp : respOfHistory entry = .ok resp) :
    classify_content env db content ctx = .ok (resp, db, []) := by
  have h1 : classify_content env db content ctx =
      match respOfHistory entry with
      | .ok r => .ok (r, db, [])
      | .error e => .error e := by
    rw [classify_content, hr, hget]
  rw [h1, hresp]

/-- The dict a healthy history read renders for the first row matching
the hash. -/
theorem get_history_of_find (db : DB) (h : String) (c : ClassRow)
    (hf : db.classifications.find? (fun r => r.content_hash == h) = some c) :
    get_classification_history false db h = some
      { id := c.id, category := c.category, confidence := c.confidence,
        priority := c.priority, status := c.status, complexity := c.complexity,
        estimated_time := c.estimated_time, reasoning := c.reasoning,
        ai_service_used := c.ai_service_used,
        tags := (db.tags.filter (fun t => t.classification_id == c.id)).map
          (fun t => ⟨t.tag, t.confidence, t.semantic_group⟩),
        analysis := (db.analyses.find? (fun a => a.classification_id == c.id)).map
          (fun a => ⟨a.entities, a.sentiment, a.complexity_score, a.key_concepts,
            a.summary, a.language⟩) } := by
  rw [get_classification_history]
  simp only [Bool.false_eq_true, if_false]
  rw [hf]

/-- After a committed `save_classification` of a validating payload
(possibly followed by store changes that leave the classification
table alone), the content hash looks up a row that validates back to
the payload's response. -/
theorem history_validates_after_update (db0 : DB) (content : String)
    (d : List (String × Json)) (svc : String) (t : Nat) (resp : ClassificationResponse)
    (hof : ClassificationResponse.ofDict d = .ok resp) (db' : DB)
    (hclass : db'.classifications =
      (save_classification_core db0 content d svc t).1.classifications) :
    ∃ entry, get_classification_history false db' (generate_content_hash content) = some entry ∧
      respOfHistory entry = .ok resp := by
  cases hfind : db0.classifications.find?
      (fun r => r.content_hash == generate_content_hash content) with
  | some r =>
    have hcl : (save_classification_core db0 content d svc t).1.classifications =
        updateFirstClass db0.classifications (generate_content_hash content) (classUpd d svc) := by
      rw [save_classification_core, hfind]
    have hfind' : db'.classifications.find?
        (fun x => x.content_hash == generate_content_hash content) = some (classUpd d svc r) := by
      rw [hclass, hcl, find?_updateFirstClass db0.classifications
        (generate_content_hash content) (classUpd d svc) (fun x => rfl), hfind]
      rfl
    exact ⟨_, get_history_of_find db' _ _ hfind',
      respOfHistory_of_ofDict d resp hof _ _ _ _ _ _ _ _ _ _ _⟩
  | none =>
    have hcl : (save_classification_core db0 content d svc t).1.classifications =
        db0.classifications ++ [classNewRow db0 content d svc] := by
      rw [save_classification_core, hfind]
    have hfind' : db'.classifications.find?
        (fun x => x.content_hash == generate_content_hash content) =
        some (classNewRow db0 content d svc) := by
      rw [hclass, hcl, find?_append_none _ _ _ hfind]
      exact List.find?_cons_of_pos _ (by simp [classNewRow])
    exact ⟨_, get_history_of_find db' _ _ hfind',
      respOfHistory_of_ofDict d resp hof _ _ _ _ _ _ _ _ _ _ _⟩

/-- Any completed dispatch ends with a classification save of a
validating payload; the saved row then serves a cache hit replaying
the same response with empty trace and unchanged store. -/
theorem c4_conclude (env : Env) (content : String) (ctx : Option String)
    (hr : env.readFault = false) (db0 : DB) (d : List (String × Json)) (svc : String) (t : Nat)
    (resp : ClassificationResponse) (hof : ClassificationResponse.ofDict d = .ok resp)
    (db' : DB)
    (hclass : db'.classifications =
      (save_classification_core db0 content d svc t).1.classifications) :
    (∃ entry, get_classification_history false db' (generate_content_hash content) = some entry ∧
      respOfHistory entry = .ok resp) ∧
    classify_content env db' content ctx = .ok (resp, db', []) := by
  obtain ⟨entry, hget, hresp⟩ :=
    history_validates_after_update db0 content d svc t resp hof db' hclass
  exact ⟨⟨entry, hget, hresp⟩, classify_cache_hit env db' content ctx entry resp hr hget hresp⟩

/-- C4 — classification is idempotent over identical content: a cache
hit on a stored, validating row returns the stored result with no
backend invocation, no health update and an unchanged store (empty
event trace, same `DB`); and every completed `classify_content` call
with a healthy store leaves a validating row under the content hash,
so an immediately repeated submission of the identical content is a
pure cache hit returning the same response, the same store and an
empty trace. -/
theorem c4_idempotent :
    ∀ (env : Env) (db : DB) (content : String) (ctx : Option String),
      env.readFault = false → env.writeFault = false →
      (∀ entry resp,
        get_classification_history false db (generate_content_hash content) = some entry →
        respOfHistory entry = .ok resp →
        classify_content env db content ctx = .ok (resp, db, [])) ∧
      (∀ resp db' ev, classify_content env db content ctx = .ok (resp, db', ev) →
        (∃ entry, get_classification_history false db' (generate_content_hash content) = some entry ∧
          respOfHistory entry = .ok resp) ∧
        classify_content env db' content ctx = .ok (resp, db', [])) := by
  intro env db content ctx hr hw
  constructor
  · intro entry resp hget hresp
    exact classify_cache_hit env db content ctx entry resp hr hget hresp
  · intro resp db' ev hok
    cases hget : get_classification_history env.readFault db (generate_content_hash content) with
    | some entry =>
      simp only [classify_content, hget] at hok
      cases hresp : respOfHistory entry with
      | ok r =>
        rw [hresp] at hok
        simp only [Except.ok.injEq, Prod.mk.injEq] at hok
        obtain ⟨hA, hB, hC⟩ := hok
        subst hA
        subst hB
        rw [hr] at hget
        exact ⟨⟨entry, hget, hresp⟩,
          classify_cache_hit env db content ctx entry r hr hget hresp⟩
      | error e =>
        rw [hresp] at hok
        exact Except.noConfusion hok
    | none =>
      simp only [classify_content, hget] at hok
      cases hc1 : env.callService env.primary_service (create_classification_prompt content ctx) with
      | ok r1 =>
        rw [classifyAttempt_ok env db content _ env.primary_service r1 hw hc1] at hok
        simp only at hok
        cases hv1 : ClassificationResponse.ofDict (parse_classification_response r1) with
        | ok resp1 =>
          rw [hv1] at hok
          simp only [Except.ok.injEq, Prod.mk.injEq] at hok
          obtain ⟨hA, hB, hC⟩ := hok
          subst hA
          subst hB
          exact c4_conclude env content ctx hr db
            (parse_classification_response r1) env.primary_service env.ptime resp1 hv1
            _ ((update_status_classifications env.statusFault _ env.primary_service "active"
              (some (env.ptime : Int)) 0 1).1)
        | error e1 =>
          rw [hv1] at hok
          simp only at hok
          cases hc2 : env.callService env.fallback_service
              (create_classification_prompt content ctx) with
          | ok r2 =>
            rw [classifyAttempt_ok env _ content _ env.fallback_service r2 hw hc2] at hok
            simp only at hok
            cases hv2 : ClassificationResponse.ofDict (parse_classification_response r2) with
            | ok resp2 =>
              rw [hv2] at hok
              simp only [Except.ok.injEq, Prod.mk.injEq] at hok
              obtain ⟨hA, hB, hC⟩ := hok
              subst hA
              subst hB
              exact c4_conclude env content ctx hr _
                (parse_classification_response r2) env.fallback_service env.ptime resp2 hv2
                _ ((update_status_classifications env.statusFault _ env.fallback_service "active"
                  (some (env.ptime : Int)) 0 1).1)
            | error e2 =>
              rw [hv2] at hok
              simp only [save_classification, hw, Bool.false_eq_true, if_false] at hok
              simp only [Except.ok.injEq, Prod.mk.injEq] at hok
              obtain ⟨hA, hB, hC⟩ := hok
              subst hA
              subst hB
              exact c4_conclude env content ctx hr _
                (fallback_classification content).toDict "fallback" env.ptime
                (fallback_classification content) (ofDict_toDict_fallback content)
                _ ((update_status_classifications env.statusFault _ "fallback" "active"
                  (some (env.ptime : Int)) 0 1).1)
          | error e2 =>
            rw [classifyAttempt_error env _ content _ env.fallback_service e2 hc2] at hok
            simp only [save_classification, hw, Bool.false_eq_true, if_false] at hok
            simp only [Except.ok.injEq, Prod.mk.injEq] at hok
            obtain ⟨hA, hB, hC⟩ := hok
            subst hA
            subst hB
            exact c4_conclude env content ctx hr _
              (fallback_classification content).toDict "fallback" env.ptime
              (fallback_classification content) (ofDict_toDict_fallback content)
              _ ((update_status_classifications env.statusFault _ "fallback" "active"
                (some (env.ptime : Int)) 0 1).1)
      | error e1 =>
        rw [classifyAttempt_error env db content _ env.primary_service e1 hc1] at hok
        simp only at hok
        cases hc2 : env.callService env.fallback_service
            (create_classification_prompt content ctx) with
        | ok r2 =>
          rw [classifyAttempt_ok env db content _ env.fallback_service r2 hw hc2] at hok
          simp only at hok
          cases hv2 : ClassificationResponse.ofDict (parse_classification_response r2) with
          | ok resp2 =>
            rw [hv2] at hok
            simp only [Except.ok.injEq, Prod.mk.injEq] at hok
            obtain ⟨hA, hB, hC⟩ := hok
            subst hA
            subst hB
            exact c4_conclude env content ctx hr db
              (parse_classification_response r2) env.fallback_service env.ptime resp2 hv2
              _ ((update_status_classifications env.statusFault _ env.fallback_service "active"
                (some (env.ptime : Int)) 0 1).1)
          | error e2 =>
            rw [hv2] at hok
            simp only [save_classification, hw, Bool.false_eq_true, if_false] at hok
            simp only [Except.ok.injEq, Prod.mk.injEq] at hok
            obtain ⟨hA, hB, hC⟩ := hok
            subst hA
            subst hB
            exact c4_conclude env content ctx hr _
              (fallback_classification content).toDict "fallback" env.ptime
              (fallback_classification content) (ofDict_toDict_fallback content)
              _ ((update_status_classifications env.statusFault _ "fallback" "active"
                (some (env.ptime : Int)) 0 1).1)
        | error e2 =>
          rw [classifyAttempt_error env db content _ env.fallback_service e2 hc2] at hok
          simp only [save_classification, hw, Bool.false_eq_true, if_false] at hok
          simp only [Except.ok.injEq, Prod.mk.injEq] at hok
          obtain ⟨hA, hB, hC⟩ := hok
          subst hA
          subst hB
          exact c4_conclude env content ctx hr db
            (fallback_classification content).toDict "fallback" env.ptime
            (fallback_classification content) (ofDict_toDict_fallback content)
            _ ((update_status_classifications env.statusFault _ "fallback" "active"
              (some (env.ptime : Int)) 0 1).1)

/-- The store left by a first-time fallback classification of
`"hello"` against an empty store. -/
def c4db : DB :=
  (update_ai_service_status false
    (save_classification_core emptyDB "hello"
      (fallback_classification "hello").toDict "fallback" 5).1
    "fallback" "active" (some 5) 0 1).1

/-- The event trace of that first run: both backend invocations and
the fallback health update. -/
def c4ev : List Event :=
  [.callBackend "anthropic" (create_classification_prompt "hello" none),
   .callBackend "openai" (create_classification_prompt "hello" none),
   .healthUpdate "fallback" "active"]

/-- C4 witness — a first submission of `"hello"` against an empty
store (both backends unreachable) completes with the fallback result;
the repeated submission is a cache hit: same response, same store,
empty trace. -/
theorem c4_idempotent_witness :
    bothFailEnv.readFault = false ∧ bothFailEnv.writeFault = false ∧
    classify_content bothFailEnv emptyDB "hello" none =
      .ok (fallback_classification "hello", c4db, c4ev) ∧
    (∃ entry,
      get_classification_history false c4db (generate_content_hash "hello") = some entry ∧
      respOfHistory entry = .ok (fallback_classification "hello")) ∧
    classify_content bothFailEnv c4db "hello" none =
      .ok (fallback_classification "hello", c4db, []) := by
  have hrun : classify_content bothFailEnv emptyDB "hello" none =
      .ok (fallback_classification "hello", c4db, c4ev) := rfl
  exact ⟨rfl, rfl, hrun,
    (c4_idempotent bothFailEnv emptyDB "hello" none rfl rfl).2
      (fallback_classification "hello") c4db c4ev hrun⟩

/-- An elementwise-successful `mapM` over `Except` succeeds. -/
theorem mapM_ok_of_all {α β : Type} (f : α → Except String β) (l : List α)
    (h : ∀ x ∈ l, ∃ y, f x = .ok y) : ∃ ys, l.mapM f = .ok ys := by
  induction l with
  | nil => exact ⟨[], rfl⟩
  | cons a t ih =>
    obtain ⟨y, hy⟩ := h a (by simp)
    obtain ⟨ys, hys⟩ := ih (fun x hx => h x (by simp [hx]))
    refine ⟨y :: ys, ?_⟩
    rw [List.mapM_cons, hy, except_ok_bind, hys, except_ok_bind]
    rfl

/-- `sum(...)` over JSON values whose numeric reading is defined: the
Python sum is the sum of the readings. -/
theorem pySumQ_of_all (l : List Json) (h : ∀ x ∈ l, (jNumVal x).isSome = true) :
    pySumQ l = some ((l.map (fun x => (jNumVal x).getD 0)).sum) := by
  suffices H : ∀ acc : ℚ,
      l.foldlM (fun acc j => (jNumVal j).map (fun q => acc + q)) acc =
        some (acc + (l.map (fun x => (jNumVal x).getD 0)).sum) by
    rw [pySumQ, H 0, zero_add]
  induction l with
  | nil =>
    intro acc
    exact congrArg some (by simp)
  | cons a t ih =>
    intro acc
    obtain ⟨v, hv⟩ := Option.isSome_iff_exists.mp (h a (by simp))
    have hstep : (a :: t).foldlM (fun acc j => (jNumVal j).map (fun q => acc + q)) acc =
        t.foldlM (fun acc j => (jNumVal j).map (fun q => acc + q)) (acc + v) := by
      rw [List.foldlM_cons, hv]
      rfl
    rw [hstep, ih (fun x hx => h x (by simp [hx])) (acc + v)]
    simp [hv, add_assoc]

/-- The dict-comprehension collapse keeps keys and values drawn from
the input pairs: any elementwise property of keys and values is
preserved. -/
theorem jdictCollapse_all (Q1 Q2 : Json → Prop) (l : List (Json × Json))
    (h : ∀ p ∈ l, Q1 p.1 ∧ Q2 p.2) :
    ∀ p ∈ jdictCollapse l, Q1 p.1 ∧ Q2 p.2 := by
  rw [jdictCollapse]
  suffices H : ∀ (l acc : List (Json × Json)), (∀ p ∈ acc, Q1 p.1 ∧ Q2 p.2) →
      (∀ p ∈ l, Q1 p.1 ∧ Q2 p.2) →
      ∀ p ∈ l.foldl (fun acc p =>
        if acc.any (fun q => q.1 == p.1) then
          acc.map (fun q => if q.1 == p.1 then (q.1, p.2) else q)
        else acc ++ [p]) acc, Q1 p.1 ∧ Q2 p.2 by
    exact H l [] (by simp) h
  intro l
  induction l with
  | nil => intro acc hacc _ p hp; exact hacc p hp
  | cons a t ih =>
    intro acc hacc hl p hp
    rw [List.foldl_cons] at hp
    refine ih _ ?_ (fun q hq => hl q (by simp [hq])) p hp
    intro q hq
    cases hb : acc.any (fun r => r.1 == a.1) with
    | true =>
      rw [hb] at hq
      simp only [if_true] at hq
      obtain ⟨q0, hq0, hq0e⟩ := List.mem_map.mp hq
      by_cases hcase : (q0.1 == a.1) = true
      · rw [if_pos hcase] at hq0e
        rw [← hq0e]
        exact ⟨(hacc q0 hq0).1, (hl a (by simp)).2⟩
      · rw [if_neg hcase] at hq0e
        rw [← hq0e]
        exact hacc q0 hq0
    | false =>
      rw [hb] at hq
      simp only [Bool.false_eq_true, if_false] at hq
      rcases List.mem_append.mp hq with h1 | h1
      · exact hacc q h1
      · rw [List.mem_singleton.mp h1]
        exact hl a (by simp)

/-- A nonempty list is not `isEmpty`. -/
theorem isEmpty_false_of_ne_nil {α : Type} (l : List α) (h : l ≠ []) : l.isEmpty = false := by
  cases l with
  | nil => exact absurd rfl h
  | cons a t => rfl

/-- On clean stored tag rows (string tag, numeric confidence, string
group) the cache-hit rebuild succeeds, with an empty `related_topics`
and the arithmetic mean of the stored confidences. -/
theorem cachedTaggingResponse_clean (tags : List TagEntry)
    (hne : tags ≠ [])
    (h1 : ∀ te ∈ tags, ∃ s, te.tag = Json.str s)
    (h2 : ∀ te ∈ tags, (jNumVal te.confidence).isSome = true)
    (h3 : ∀ te ∈ tags, ∃ g, te.group = Json.str g) :
    ∃ smart groups, cachedTaggingResponse tags = .ok
      ⟨smart,
       ((tags.map (fun t => t.confidence)).map (fun x => (jNumVal x).getD 0)).sum /
         (tags.length : ℚ),
       groups, []⟩ := by
  obtain ⟨smart, hsmart⟩ := mapM_ok_of_all (fun v => vStr v) (tags.map (fun t => t.tag))
    (by
      intro x hx
      obtain ⟨te, hte, rfl⟩ := List.mem_map.mp hx
      obtain ⟨s, hs⟩ := h1 te hte
      exact ⟨s, by rw [hs]; rfl⟩)
  have htotal := pySumQ_of_all (tags.map (fun t => t.confidence))
    (by
      intro x hx
      obtain ⟨te, hte, rfl⟩ := List.mem_map.mp hx
      exact h2 te hte)
  have hne' : tags.isEmpty = false := isEmpty_false_of_ne_nil tags hne
  have hany : tags.any (fun t => isUnhashable t.group) = false := by
    rw [List.any_eq_false]
    intro te hte
    obtain ⟨g, hg⟩ := h3 te hte
    simp [hg, isUnhashable]
  have hpairs := jdictCollapse_all (fun j => ∃ g, j = Json.str g)
    (fun j => ∃ ys, vStrList j = Except.ok ys)
    (tags.map (fun t => (t.group, Json.arr [t.tag])))
    (by
      intro p hp
      obtain ⟨te, hte, rfl⟩ := List.mem_map.mp hp
      refine ⟨h3 te hte, ?_⟩
      obtain ⟨s, hs⟩ := h1 te hte
      exact ⟨[s], by rw [hs]; rfl⟩)
  obtain ⟨groups, hgroups⟩ := mapM_ok_of_all
    (fun p => do
      let k ← vStr p.1
      let v ← vStrList p.2
      pure (k, v))
    (jdictCollapse (tags.map (fun t => (t.group, Json.arr [t.tag]))))
    (by
      intro p hp
      obtain ⟨⟨g, hg1⟩, ⟨ys, hg2⟩⟩ := hpairs p hp
      refine ⟨(g, ys), ?_⟩
      simp only [hg1, hg2]
      rfl)
  refine ⟨smart, groups, ?_⟩
  simp only [cachedTaggingResponse, hsmart, except_ok_bind, htotal, hne', Bool.false_eq_true,
    if_false, hany, hgroups]
  rfl

/-- A primary-backend tagging reply: valid JSON with a nonempty
`related_topics` list and no `general` semantic group. -/
def c9reply : String :=
  "\x7b\"smart_tags\": [\"alpha\", \"beta\"], \"confidence\": 0.8, \"semantic_groups\": \x7b\"tech\": [\"alpha\"]\x7d, \"related_topics\": [\"topic1\"]\x7d"

/-- An environment whose primary backend returns that reply. -/
def env9 : Env :=
  ⟨"anthropic", "openai",
   fun service _ => if service == "anthropic" then .ok c9reply else .error "backend unreachable",
   false, false, false, 5⟩

/-- A stored classification row (no tag rows yet) for the scenario
content. -/
def c9row : ClassRow :=
  ⟨0, generate_content_hash "c9 content", "c9 content", Json.str "01-Projects", Json.num 8 1,
   Json.str "high", Json.str "active", Json.str "medium", Json.str "1 hour", Json.str "r",
   "anthropic"⟩

/-- The store before the first tagging call. -/
def c9db0 : DB := { emptyDB with classifications := [c9row], next_class_id := 1 }

/-- The store after the first tagging call: the saved tag rows and the
health record. -/
def c9db1 : DB :=
  (update_ai_service_status false
    ((save_tags false c9db0 0 (parse_tagging_response c9reply) "anthropic" 5).toOption.getD c9db0)
    "anthropic" "active" (some 5) 0 1).1

/-- The response the first call returns, straight from the backend
reply — note the nonempty `related_topics`. -/
def c9first : TaggingResponse :=
  ⟨["alpha", "beta"], Json.numVal 8 1, [("tech", ["alpha"])], ["topic1"]⟩

/-- The first call's event trace. -/
def c9ev : List Event :=
  [.callBackend "anthropic" (create_tagging_prompt "c9 content" none none none),
   .healthUpdate "anthropic" "active"]

/-- The history entry the second call reads back. -/
def c9ex : HistoryEntry :=
  ⟨0, Json.str "01-Projects", Json.num 8 1, Json.str "high", Json.str "active",
   Json.str "medium", Json.str "1 hour", Json.str "r", "anthropic",
   [⟨Json.str "alpha", Json.num 8 1, Json.str "general"⟩,
    ⟨Json.str "beta", Json.num 8 1, Json.str "general"⟩], none⟩

/-- C9 — on a tagging cache hit over clean stored tag rows,
`generate_smart_tags` returns, without calling any backend or writing
(empty trace, unchanged store), a response with an empty
`related_topics` list and a confidence equal to the arithmetic mean of
the stored per-tag confidences; consequently the cache-hit response is
not in general the originally returned `TaggingResponse`: in the
exhibited scenario the first call returns a nonempty `related_topics`
and the cache hit does not. -/
theorem c9_cached_tagging :
    (∀ (env : Env) (db : DB) (content : String) (title category analysis : Option String)
      (ex : HistoryEntry),
      env.readFault = false →
      get_classification_history false db (generate_content_hash content) = some ex →
      ex.tags ≠ [] →
      (∀ te ∈ ex.tags, ∃ s, te.tag = Json.str s) →
      (∀ te ∈ ex.tags, (jNumVal te.confidence).isSome = true) →
      (∀ te ∈ ex.tags, ∃ g, te.group = Json.str g) →
      ∃ resp, generate_smart_tags env db content title category analysis = .ok (resp, db, []) ∧
        resp.related_topics = [] ∧
        resp.confidence =
          ((ex.tags.map (fun t => t.confidence)).map (fun x => (jNumVal x).getD 0)).sum /
            (ex.tags.length : ℚ)) ∧
    ∃ (env : Env) (db : DB) (content : String) (first : TaggingResponse) (db1 : DB)
      (ev : List Event) (second : TaggingResponse),
      generate_smart_tags env db content none none none = .ok (first, db1, ev) ∧
      generate_smart_tags env db1 content none none none = .ok (second, db1, []) ∧
      first.related_topics ≠ [] ∧ second.related_topics = [] ∧ second ≠ first := by
  have part1 : ∀ (env : Env) (db : DB) (content : String)
      (title category analysis : Option String) (ex : HistoryEntry),
      env.readFault = false →
      get_classification_history false db (generate_content_hash content) = some ex →
      ex.tags ≠ [] →
      (∀ te ∈ ex.tags, ∃ s, te.tag = Json.str s) →
      (∀ te ∈ ex.tags, (jNumVal te.confidence).isSome = true) →
      (∀ te ∈ ex.tags, ∃ g, te.group = Json.str g) →
      ∃ resp, generate_smart_tags env db content title category analysis = .ok (resp, db, []) ∧
        resp.related_topics = [] ∧
        resp.confidence =
          ((ex.tags.map (fun t => t.confidence)).map (fun x => (jNumVal x).getD 0)).sum /
            (ex.tags.length : ℚ) := by
    intro env db content title category analysis ex hr hget hne h1 h2 h3
    obtain ⟨smart, groups, hcache⟩ := cachedTaggingResponse_clean ex.tags hne h1 h2 h3
    have h1g : generate_smart_tags env db content title category analysis =
        (if ex.tags.isEmpty then tagDispatch env db (some ex) content title category analysis
         else
          match cachedTaggingResponse ex.tags with
          | .ok r => .ok (r, db, [])
          | .error e => .error e) := by
      rw [generate_smart_tags, hr, hget]
    refine ⟨⟨smart,
      ((ex.tags.map (fun t => t.confidence)).map (fun x => (jNumVal x).getD 0)).sum /
        (ex.tags.length : ℚ), groups, []⟩, ?_, rfl, rfl⟩
    rw [h1g, isEmpty_false_of_ne_nil _ hne]
    simp only [Bool.false_eq_true, if_false]
    rw [hcache]
  refine ⟨part1, ?_⟩
  have hfirst : generate_smart_tags env9 c9db0 "c9 content" none none none =
      .ok (c9first, c9db1, c9ev) := by decide
  have hget2 : get_classification_history false c9db1 (generate_content_hash "c9 content") =
      some c9ex := by decide
  obtain ⟨resp, hsecond, hrt, hconf⟩ :=
    part1 env9 c9db1 "c9 content" none none none c9ex rfl hget2 (by decide)
      (by
        intro te hte
        simp only [c9ex, List.mem_cons, List.not_mem_nil, or_false] at hte
        rcases hte with rfl | rfl
        · exact ⟨"alpha", rfl⟩
        · exact ⟨"beta", rfl⟩)
      (by decide)
      (by
        intro te hte
        simp only [c9ex, List.mem_cons, List.not_mem_nil, or_false] at hte
        rcases hte with rfl | rfl
        · exact ⟨"general", rfl⟩
        · exact ⟨"general", rfl⟩)
  refine ⟨env9, c9db0, "c9 content", c9first, c9db1, c9ev, resp, hfirst, hsecond,
    by decide, hrt, ?_⟩
  intro heq
  rw [heq] at hrt
  exact absurd hrt (by decide)

/-- C9 witness — the concrete store after the scenario's first call is
a cache hit with two clean stored tag rows; the rebuilt response has an
empty `related_topics` and the mean stored confidence. -/
theorem c9_cached_tagging_witness :
    env9.readFault = false ∧
    get_classification_history false c9db1 (generate_content_hash "c9 content") = some c9ex ∧
    c9ex.tags ≠ [] ∧
    ∃ resp, generate_smart_tags env9 c9db1 "c9 content" none none none = .ok (resp, c9db1, []) ∧
      resp.related_topics = [] ∧
      resp.confidence =
        ((c9ex.tags.map (fun t => t.confidence)).map (fun x => (jNumVal x).getD 0)).sum /
          (c9ex.tags.length : ℚ) := by
  refine ⟨rfl, by decide, by decide, ?_⟩
  exact (c9_cached_tagging).1 env9 c9db1 "c9 content" none none none c9ex rfl (by decide)
    (by decide)
    (by
      intro te hte
      simp only [c9ex, List.mem_cons, List.not_mem_nil, or_false] at hte
      rcases hte with rfl | rfl
      · exact ⟨"alpha", rfl⟩
      · exact ⟨"beta", rfl⟩)
    (by decide)
    (by
      intro te hte
      simp only [c9ex, List.mem_cons, List.not_mem_nil, or_false] at hte
      rcases hte with rfl | rfl
      · exact ⟨"general", rfl⟩
      · exact ⟨"general", rfl⟩)
